import Mathlib

/-!
Verification of the agent-framework Go library (package agentframework):
a shallow embedding of its data model and core algorithms, with theorems
checking the natural-language specification against the code.

Modelling conventions, applied throughout:
* Go strings are Lean String; the Go zero value "" denotes "unset" exactly
  where the source compares against "".
* Go int fields are Int, except token counts (UsageDetails), which are
  always non-negative counts in this code base and are modelled as Nat.
* Go (value, error) returns become Except; a tool invocation result
  (Go: any) is modelled as String, since every code path under
  verification only stores it opaquely in a FunctionResultContent.
* Effectful code is embedded by explicit state passing: the ChatClient
  backend becomes a function from the call index (the loop's iteration
  counter; the source issues exactly one backend call per iteration) and
  the current message list to a response-or-error.
* Fields the verified code never reads or writes (Raw, Extra, CreatedAt,
  AuthorName, MessageID, tool descriptions' use sites, context values)
  are omitted from the records.
-/

/-- Roles are Go strings ("user", "assistant", "system", "tool"); "" is the
zero value meaning "unspecified". -/
abbrev Role := String

def RoleUser : Role := "user"
def RoleAssistant : Role := "assistant"
def RoleSystem : Role := "system"
def RoleTool : Role := "tool"

/-- Content: the closed tagged union of message content items
(source: content.go).  The verified functions pattern-match only on
TextContent, FunctionCallContent, FunctionResultContent and
ApprovalRequestContent; every remaining variant of the closed union
(reasoning, data, uri, error, usage, hosted-file, ...) is handled
uniformly as an opaque pass-through value and is represented here by the
`other` constructor carrying its discriminator tag. -/
inductive Content where
  | text (text : String)
  | functionCall (callID name arguments : String)
  | functionResult (callID : String) (result : String)
  | approvalRequest (callID name arguments : String)
  | other (tag : String)
deriving DecidableEq, Repr

/-- Message: role plus ordered content items (source: message.go). -/
structure Message where
  role : Role := ""
  contents : List Content := []
deriving DecidableEq, Repr

/-- NewToolMessage creates a tool-role message with a function result
(source: message.go NewToolMessage). -/
def newToolMessage (callID : String) (result : String) : Message :=
  { role := RoleTool, contents := [Content.functionResult callID result] }

/-- UsageDetails token counts (source: usage.go).  Go ints that are always
non-negative token counts; modelled as Nat. -/
structure UsageDetails where
  inputTokens : Nat := 0
  outputTokens : Nat := 0
  totalTokens : Nat := 0
deriving DecidableEq, Repr

/-- FinishReason is a Go string; "" is the zero value meaning unset. -/
abbrev FinishReason := String

/-- ChatResponse (source: response.go).  CreatedAt, Extra and Raw are
opaque payloads never read by the verified code and are omitted. -/
@[ext]
structure ChatResponse where
  messages : List Message := []
  responseID : String := ""
  conversationID : String := ""
  modelID : String := ""
  finishReason : FinishReason := ""
  usage : UsageDetails := {}
deriving DecidableEq, Repr

/-- ChatResponseUpdate: one streaming chunk (source: response.go).
Raw is omitted (opaque, never read). -/
structure ChatResponseUpdate where
  contents : List Content := []
  role : Role := ""
  responseID : String := ""
  conversationID : String := ""
  modelID : String := ""
  finishReason : FinishReason := ""
  usage : UsageDetails := {}
deriving DecidableEq, Repr

/-- The flush helper closed over by mergeContentDeltas: append the text
accumulator as a single TextContent when non-empty
(source: response.go mergeContentDeltas, the flush closure). -/
def flushText (merged : List Content) (buf : String) : List Content :=
  if buf.length > 0 then merged ++ [Content.text buf] else merged

/-- The loop body of mergeContentDeltas over the remaining content items,
carrying the accumulated output and the text accumulator
(source: response.go mergeContentDeltas, the for loop plus final flush). -/
def mergeLoop : List Content → List Content → String → List Content
  | [], merged, buf => flushText merged buf
  | c :: rest, merged, buf =>
    match c with
    | Content.text t => mergeLoop rest merged (buf ++ t)
    | _ => mergeLoop rest (flushText merged buf ++ [c]) ""

/-- mergeContentDeltas consolidates sequential TextContent runs into single
items and passes non-text content through as-is
(source: response.go mergeContentDeltas). -/
def mergeContentDeltas (cs : List Content) : List Content :=
  if cs.isEmpty then [] else mergeLoop cs [] ""

/-- One step of the field accumulation in ChatResponseFromUpdates: each
non-empty (respectively, positive-total) update field overwrites the
accumulated value (source: response.go ChatResponseFromUpdates,
loop body minus content concatenation). -/
def updateFields (r : ChatResponse) (u : ChatResponseUpdate) : ChatResponse :=
  { r with
    responseID := if u.responseID ≠ "" then u.responseID else r.responseID
    conversationID := if u.conversationID ≠ "" then u.conversationID else r.conversationID
    modelID := if u.modelID ≠ "" then u.modelID else r.modelID
    finishReason := if u.finishReason ≠ "" then u.finishReason else r.finishReason
    usage := if u.usage.totalTokens > 0 then u.usage else r.usage }

/-- ChatResponseFromUpdates builds a complete ChatResponse by merging a
sequence of streaming updates (source: response.go ChatResponseFromUpdates).
The Go loop concatenates u.Contents and folds the scalar fields in one
pass; the two folds are written separately here but traverse the same
sequence in the same order. -/
def chatResponseFromUpdates (updates : List ChatResponseUpdate) : ChatResponse :=
  let allContents := updates.foldl (fun acc u => acc ++ u.contents) []
  let resp := updates.foldl updateFields {}
  let merged := mergeContentDeltas allContents
  if merged.length > 0 then
    let role := match updates with
      | [] => RoleAssistant
      | u :: _ => if u.role ≠ "" then u.role else RoleAssistant
    { resp with messages := [{ role := role, contents := merged }] }
  else resp

/-! ### Specification-side description of the merge (for refinement)

The following definitions are written from the specification's words
(spec.md section 4.5) and are compared with the source-derived functions
above. -/

/-- Modelled from the spec: one right-fold step of collapsing a run of
adjacent plain-text items; non-text items pass through. -/
def collapseStep (c : Content) (l : List Content) : List Content :=
  match c, l with
  | Content.text t, Content.text s :: r => Content.text (t ++ s) :: r
  | Content.text t, r => if t = "" then r else Content.text t :: r
  | c, r => c :: r

/-- Modelled from the spec: collapse every run of adjacent plain-text
content items into a single text item (empty accumulated text produces
no item), passing non-text items through unchanged. -/
def collapseRuns : List Content → List Content
  | [] => []
  | c :: rest => collapseStep c (collapseRuns rest)

/-- Modelled from the spec: the last non-empty value observed in a list of
optional (possibly "") string field values, default "". -/
def lastNonEmpty (l : List String) : String :=
  l.foldl (fun acc s => if s ≠ "" then s else acc) ""

/-- Modelled from the spec: the usage of the last update whose usage total
is non-zero, default zero usage. -/
def lastUsage (l : List UsageDetails) : UsageDetails :=
  l.foldl (fun acc u => if u.totalTokens > 0 then u else acc) {}

/-- Modelled from the spec (amended per the source): the synthesized
message's role is the first update's role when that update specifies one,
otherwise the assistant role. -/
def roleOfUpdates (us : List ChatResponseUpdate) : Role :=
  match us with
  | [] => RoleAssistant
  | u :: _ => if u.role ≠ "" then u.role else RoleAssistant

/-- Modelled from the spec, as the claim states it: the role of the first
update in the sequence that specifies one (default: assistant). -/
def roleFirstSpecified (us : List ChatResponseUpdate) : Role :=
  match us.find? (fun u => u.role != "") with
  | some u => u.role
  | none => RoleAssistant

/-- Modelled from the spec: the whole update merge, described
declaratively — concatenate all content items in arrival order, collapse
runs of adjacent text, take the last non-empty scalar fields and the last
non-zero-total usage, and synthesize a single message (none when the
collapsed content is empty) whose role is given by roleOfUpdates. -/
def mergeSpec (us : List ChatResponseUpdate) : ChatResponse :=
  let contents := collapseRuns (us.map ChatResponseUpdate.contents).flatten
  { messages := if contents = [] then []
      else [{ role := roleOfUpdates us, contents := contents }]
    responseID := lastNonEmpty (us.map ChatResponseUpdate.responseID)
    conversationID := lastNonEmpty (us.map ChatResponseUpdate.conversationID)
    modelID := lastNonEmpty (us.map ChatResponseUpdate.modelID)
    finishReason := lastNonEmpty (us.map ChatResponseUpdate.finishReason)
    usage := lastUsage (us.map ChatResponseUpdate.usage) }

/-- Modelled from the spec, as the claim states it: identical to mergeSpec
except that the synthesized message's role comes from the first update in
the sequence that specifies one. -/
def mergeClaimed (us : List ChatResponseUpdate) : ChatResponse :=
  { mergeSpec us with
    messages := (mergeSpec us).messages.map
      (fun m => { m with role := roleFirstSpecified us }) }

/-- A complete response re-presented as a single streaming update: its
messages' content items in order and its scalar fields, the role taken
from its first message (used to state the merge associativity claim). -/
def updateOfResponse (r : ChatResponse) : ChatResponseUpdate :=
  { contents := (r.messages.map Message.contents).flatten
    role := match r.messages with
      | [] => ""
      | m :: _ => m.role
    responseID := r.responseID
    conversationID := r.conversationID
    modelID := r.modelID
    finishReason := r.finishReason
    usage := r.usage }

/-- Modelled from the spec: content-equality of two responses — equal
concatenated content sequences and equal values of the four
last-non-empty-wins scalar fields (response id, conversation id, model id,
finish reason); roles and usage are outside this comparison. -/
def contentEqual (r1 r2 : ChatResponse) : Prop :=
  (r1.messages.map Message.contents).flatten = (r2.messages.map Message.contents).flatten
  ∧ r1.responseID = r2.responseID
  ∧ r1.conversationID = r2.conversationID
  ∧ r1.modelID = r2.modelID
  ∧ r1.finishReason = r2.finishReason

/-- Modelled from the spec: merge the first k updates and the remaining
updates separately, then merge the two partial results (each re-presented
as a single update). -/
def splitMerge (us : List ChatResponseUpdate) (k : Nat) : ChatResponse :=
  chatResponseFromUpdates
    [updateOfResponse (chatResponseFromUpdates (us.take k)),
     updateOfResponse (chatResponseFromUpdates (us.drop k))]

/-! ### Tools, options and the function-invocation loop -/

/-- ApprovalMode is a Go string; the zero value "" (the default for a
FunctionTool) is treated like "never" by the loop, which only compares
against "always" (source: tool.go). -/
abbrev ApprovalMode := String

def ApprovalNever : ApprovalMode := "never"
def ApprovalAlways : ApprovalMode := "always"

/-- Tool: a named callable exposed to the model (source: tool.go).  The Go
Invoke signature (ctx, json.RawMessage) -> (any, error) is modelled as
String -> Except String String: the argument is the JSON-encoded argument
string, errors carry their message, and results are opaque strings (the
loop only stores them in a function-result content item). -/
structure Tool where
  name : String
  description : String := ""
  parameters : String := ""
  invoke : String → Except String String
  declarationOnly : Bool := false
  approval : ApprovalMode := ""

/-- FunctionHandler (source: middleware.go): the signature for invoking a
tool; the context parameter is omitted (cancellation is out of scope). -/
abbrev FunctionHandler := Tool → String → Except String String

/-- FunctionMiddleware wraps a FunctionHandler (source: middleware.go). -/
abbrev FunctionMiddleware := FunctionHandler → FunctionHandler

/-- chainFunctionMiddleware applies middleware in order, first in the list
being the outermost wrapper (source: middleware.go chainFunctionMiddleware;
the Go loop wraps handler from the last index down to index 0). -/
def chainFunctionMiddleware (handler : FunctionHandler)
    (mws : List FunctionMiddleware) : FunctionHandler :=
  mws.foldr (fun m h => m h) handler

/-- invokeToolWithMiddleware runs the tool through the function middleware
chain around the base handler t.invoke (source: tool_invoke.go). -/
def invokeToolWithMiddleware (tool : Tool) (args : String)
    (mws : List FunctionMiddleware) : Except String String :=
  chainFunctionMiddleware (fun t a => t.invoke a) mws tool args

/-- InvocationConfig (source: tool_invoke.go).  Go int fields modelled as
Int; zero values mean "use the default". -/
structure InvocationConfig where
  maxIterations : Int := 0
  maxConsecutiveErrors : Int := 0
  terminateOnUnknown : Bool := false
  includeDetailedErrors : Bool := false
deriving DecidableEq, Repr

/-- DefaultInvocationConfig (source: tool_invoke.go). -/
def defaultInvocationConfig : InvocationConfig :=
  { maxIterations := 40, maxConsecutiveErrors := 3 }

/-- The defaulting at the top of invokeFunctions: non-positive bounds are
replaced by 40 and 3 (source: tool_invoke.go lines 50-55). -/
def normalizeConfig (c : InvocationConfig) : InvocationConfig :=
  { c with
    maxIterations := if c.maxIterations ≤ 0 then 40 else c.maxIterations
    maxConsecutiveErrors :=
      if c.maxConsecutiveErrors ≤ 0 then 3 else c.maxConsecutiveErrors }

/-- ToolChoice is a Go string (source: options.go). -/
abbrev ToolChoice := String

/-- ChatOptions (source: options.go).  Pointer fields are Options; the
float64 pointers are modelled as Option Rat (their values are only copied,
never computed with); ResponseFormat (Go any) is opaque and modelled as
Option String; the Metadata and Extra Go maps are modelled as association
lists whose key order is immaterial (map semantics), with values of Extra
(Go any) opaque strings. -/
@[ext]
structure ChatOptions where
  modelID : String := ""
  temperature : Option Rat := none
  topP : Option Rat := none
  maxTokens : Option Int := none
  stop : List String := []
  seed : Option Int := none
  frequencyPenalty : Option Rat := none
  presencePenalty : Option Rat := none
  tools : List Tool := []
  toolChoice : ToolChoice := ""
  responseFormat : Option String := none
  metadata : List (String × String) := []
  user : String := ""
  instructions : String := ""
  conversationID : String := ""
  store : Option Bool := none
  extra : List (String × String) := []

/-- functionCall: an extracted function call (source: tool_invoke.go). -/
structure FunctionCall where
  callID : String
  name : String
  arguments : String
deriving DecidableEq, Repr

/-- extractFunctionCalls finds all function-call content items across a
response's messages in document order (source: tool_invoke.go). -/
def extractFunctionCalls (resp : ChatResponse) : List FunctionCall :=
  (resp.messages.map (fun m => m.contents.filterMap (fun c =>
    match c with
    | Content.functionCall callID name arguments =>
        some { callID := callID, name := name, arguments := arguments }
    | _ => none))).flatten

/-- The tool lookup map built once per loop invocation: keyed by tool
name, last-registered tool wins on a name collision (source:
tool_invoke.go lines 57-61; Go map insertion makes the last same-named
tool win). -/
def lookupTool (tools : List Tool) (n : String) : Option Tool :=
  tools.foldl (fun acc t => if t.name = n then some t else acc) none

/-- The loop's error outcomes (source: tool_invoke.go).  unknownTool and
maxConsecutiveErrors wrap ErrToolExecution (tool-execution kind);
maxIterations wraps ErrExecution (execution kind); clientError propagates
the backend error unchanged (source: errors.go for the sentinel kinds). -/
inductive LoopError where
  | clientError (message : String)
  | unknownTool (name : String)
  | maxConsecutiveErrors (count : Int)
  | maxIterations (count : Int)
deriving DecidableEq, Repr

/-- The three ways the per-response call-processing loop can end (source:
tool_invoke.go lines 77-132): a fatal error (Go: return nil, err), an
early return of a response (approval request or declaration-only; Go:
return resp, nil from inside the inner loop), or normal completion with
the accumulated tool-result messages and the updated consecutive-error
counter. -/
inductive CallsOutcome where
  | fatal (e : LoopError)
  | earlyReturn (resp : ChatResponse)
  | done (resultMessages : List Message) (consecutiveErrors : Int)
deriving Repr

/-- The assistant message carrying a single approval-request content item
appended for an approval-required call (source: tool_invoke.go lines
93-101). -/
def approvalMessage (call : FunctionCall) : Message :=
  { role := RoleAssistant,
    contents := [Content.approvalRequest call.callID call.name call.arguments] }

/-- processCalls: the inner for-loop of invokeFunctions over the pending
calls of one response (source: tool_invoke.go lines 77-132), with the
chained middleware invocation passed in as invoke. -/
def processCalls (cfg : InvocationConfig) (tools : List Tool)
    (invoke : Tool → String → Except String String) (resp : ChatResponse) :
    List FunctionCall → List Message → Int → CallsOutcome
  | [], resultMessages, consecutiveErrors =>
      CallsOutcome.done resultMessages consecutiveErrors
  | call :: rest, resultMessages, consecutiveErrors =>
    match lookupTool tools call.name with
    | none =>
      if cfg.terminateOnUnknown then
        CallsOutcome.fatal (LoopError.unknownTool call.name)
      else
        processCalls cfg tools invoke resp rest
          (resultMessages ++ [newToolMessage call.callID "error: unknown tool"])
          (consecutiveErrors + 1)
    | some tool =>
      if tool.approval = ApprovalAlways then
        CallsOutcome.earlyReturn
          { resp with messages := resp.messages ++ [approvalMessage call] }
      else if tool.declarationOnly then
        CallsOutcome.earlyReturn resp
      else
        match invoke tool call.arguments with
        | Except.error e =>
          if consecutiveErrors + 1 ≥ cfg.maxConsecutiveErrors then
            CallsOutcome.fatal
              (LoopError.maxConsecutiveErrors (consecutiveErrors + 1))
          else
            processCalls cfg tools invoke resp rest
              (resultMessages ++ [newToolMessage call.callID
                (if cfg.includeDetailedErrors then e else "error invoking tool")])
              (consecutiveErrors + 1)
        | Except.ok result =>
          processCalls cfg tools invoke resp rest
            (resultMessages ++ [newToolMessage call.callID result]) 0

/-- ChatClient, embedded: the backend as a function of the call index and
the current message list.  The loop issues exactly one Response call per
iteration, so the call index is the loop's iteration counter; this models
a (possibly stateful) deterministic backend. -/
abbrev ChatClient := Nat → List Message → Except String ChatResponse

/-- The iteration loop of invokeFunctions (source: tool_invoke.go lines
63-141): fuel counts the remaining iterations (the Go for-loop runs at
most maxIterations times), iteration is the Go loop variable and the
client call index.  Exhausted fuel is the Go loop falling through to the
max-iterations error (line 141). -/
def invokeLoop (client : ChatClient) (cfg : InvocationConfig)
    (tools : List Tool) (invoke : Tool → String → Except String String) :
    Nat → Nat → List Message → Int → Except LoopError ChatResponse
  | 0, _, _, _ => Except.error (LoopError.maxIterations cfg.maxIterations)
  | fuel + 1, iteration, messages, consecutiveErrors =>
    match client iteration messages with
    | Except.error e => Except.error (LoopError.clientError e)
    | Except.ok resp =>
      match extractFunctionCalls resp with
      | [] => Except.ok resp
      | call :: rest =>
        match processCalls cfg tools invoke resp (call :: rest) []
            consecutiveErrors with
        | CallsOutcome.fatal e => Except.error e
        | CallsOutcome.earlyReturn r => Except.ok r
        | CallsOutcome.done resultMessages consecutiveErrors' =>
          invokeLoop client cfg tools invoke fuel (iteration + 1)
            (messages ++ resp.messages ++ resultMessages) consecutiveErrors'

/-- invokeFunctions: the tool-calling loop entry point (source:
tool_invoke.go invokeFunctions).  Builds the tool lookup from opts.Tools,
composes the function middleware chain once, and runs the bounded
iteration loop starting with a zero consecutive-error counter. -/
def invokeFunctions (client : ChatClient) (messages : List Message)
    (opts : ChatOptions) (config : InvocationConfig)
    (fnMiddleware : List FunctionMiddleware) : Except LoopError ChatResponse :=
  let cfg := normalizeConfig config
  invokeLoop client cfg opts.tools
    (fun t a => invokeToolWithMiddleware t a fnMiddleware)
    cfg.maxIterations.toNat 0 messages 0

/-- A backend stub that always returns the same response regardless of
call index and messages (used to state scenario parts of the claims). -/
def constClient (r : ChatResponse) : ChatClient :=
  fun _ _ => Except.ok r

/-- A response whose single assistant message requests one call of the
named tool (used to state scenario parts of the claims). -/
def singleCallResponse (n : String) : ChatResponse :=
  { messages := [{ role := RoleAssistant,
                   contents := [Content.functionCall "call-1" n "{}"] }] }

/-- A tool that fails on every invocation with the given error message
(used to state scenario parts of the claims). -/
def alwaysFailTool (n e : String) : Tool :=
  { name := n, invoke := fun _ => Except.error e }

/-- A tool that succeeds on every invocation with the given result
(used to state scenario parts of the claims). -/
def alwaysOkTool (n r : String) : Tool :=
  { name := n, invoke := fun _ => Except.ok r }

/-- A response with a single plain-text assistant message and no function
calls (used in witnesses). -/
def textResponse (t : String) : ChatResponse :=
  { messages := [{ role := RoleAssistant, contents := [Content.text t] }] }

/-- A tool whose approval mode requires human sign-off before every
invocation (used to state scenario parts of the claims). -/
def approvalTool (n : String) : Tool :=
  { name := n, invoke := fun _ => Except.ok "unused",
    approval := ApprovalAlways }

/-- A declaration-only tool: never auto-invoked by the loop (used to state
scenario parts of the claims). -/
def declOnlyTool (n : String) : Tool :=
  { name := n, invoke := fun _ => Except.ok "unused",
    declarationOnly := true }

/-- A response whose single assistant message carries two function calls,
c1 for tool "a" and c2 for tool "b" (used in witnesses). -/
def twoCallResponse : ChatResponse :=
  { messages :=
      [{ role := RoleAssistant,
         contents := [Content.functionCall "c1" "a" "{}",
                      Content.functionCall "c2" "b" "{}"] }] }

instance {ε α : Type} [DecidableEq ε] [DecidableEq α] : DecidableEq (Except ε α) := fun x y =>
  match x, y with
  | Except.error a, Except.error b =>
    if h : a = b then isTrue (by rw [h]) else isFalse (by intro hc; cases hc; exact h rfl)
  | Except.ok a, Except.ok b =>
    if h : a = b then isTrue (by rw [h]) else isFalse (by intro hc; cases hc; exact h rfl)
  | Except.error a, Except.ok b => isFalse (by intro hc; cases hc)
  | Except.ok a, Except.error b => isFalse (by intro hc; cases hc)

/-! ### Session mode locking -/

/-- MessageStore collaborator: the mode-locking code under verification
only tests the store interface value against nil and stores it; the store
is therefore modelled as an opaque name, with none standing for the Go nil
interface value. -/
abbrev MessageStore := String

/-- Session (source: session.go).  The mutex and the context provider are
omitted: the former is concurrency plumbing, the latter is never read by
the mode-locking operations. -/
structure Session where
  id : String := ""
  serviceID : String := ""
  store : Option MessageStore := none
  modeLocked : Bool := false
deriving DecidableEq, Repr

/-- The session error kind (source: errors.go ErrSessionModeLocked,
wrapped with the operation-specific detail text by session.go). -/
inductive SessionError where
  | modeLocked (detail : String)
deriving DecidableEq, Repr

/-- SetServiceID locks the session into service-managed mode; fails with
the mode-locked error when the session is locked and has a local store
(source: session.go Session.SetServiceID). -/
def setServiceID (s : Session) (id : String) : Except SessionError Session :=
  if s.modeLocked = true ∧ s.store ≠ none then
    Except.error (SessionError.modeLocked "cannot switch to service mode")
  else
    Except.ok { s with serviceID := id, modeLocked := true }

/-- SetStore locks the session into locally-managed mode; fails with the
mode-locked error when the session is locked and has a service id
(source: session.go Session.SetStore). -/
def setStore (s : Session) (store : Option MessageStore) :
    Except SessionError Session :=
  if s.modeLocked = true ∧ s.serviceID ≠ "" then
    Except.error (SessionError.modeLocked "cannot switch to local mode")
  else
    Except.ok { s with store := store, modeLocked := true }

/-- A mode-setting operation on a session: one call of SetServiceID or
SetStore with its argument. -/
inductive ModeOp where
  | setServiceOp (id : String)
  | setStoreOp (store : Option MessageStore)
deriving DecidableEq, Repr

/-- Apply one mode-setting operation; a failed call leaves the session
unchanged (the source returns the error before mutating). -/
def applyModeOp (s : Session) : ModeOp → Session
  | ModeOp.setServiceOp id =>
    match setServiceID s id with
    | Except.ok s' => s'
    | Except.error _ => s
  | ModeOp.setStoreOp st =>
    match setStore s st with
    | Except.ok s' => s'
    | Except.error _ => s

/-- Apply a sequence of mode-setting operations in order. -/
def applyModeOps (s : Session) (ops : List ModeOp) : Session :=
  ops.foldl applyModeOp s

/-- A genuine mode-setting attempt: locking into service mode with a
non-empty id, or into local mode with a non-nil store (the degenerate
calls SetServiceID("") and SetStore(nil) set neither identifier). -/
def genuineOp : ModeOp → Prop
  | ModeOp.setServiceOp id => id ≠ ""
  | ModeOp.setStoreOp st => st ≠ none

/-- The session is locked into locally-managed mode: mode lock taken with
a store attached (the condition SetServiceID fails on). -/
def lockedLocal (s : Session) : Prop := s.modeLocked = true ∧ s.store ≠ none

/-- The session is locked into service-managed mode: mode lock taken with
a service id set (the condition SetStore fails on). -/
def lockedService (s : Session) : Prop := s.modeLocked = true ∧ s.serviceID ≠ ""

/-! ### The three middleware pipelines -/

/-- AgentRequest (source: middleware.go): the inputs of an agent run. -/
structure AgentRequest where
  messages : List Message := []
  session : Option Session := none
  options : Option ChatOptions := none

/-- AgentResponse (source: response.go): the result of an agent run.
Extra and Raw are opaque and omitted. -/
structure AgentResponse where
  messages : List Message := []
  responseID : String := ""
  agentID : String := ""
  usage : UsageDetails := {}
deriving Repr

/-- AgentHandler (source: middleware.go). -/
abbrev AgentHandler := AgentRequest → Except String AgentResponse

/-- AgentMiddleware wraps an AgentHandler (source: middleware.go). -/
abbrev AgentMiddleware := AgentHandler → AgentHandler

/-- chainAgentMiddleware applies middleware in order, first in the list
being the outermost wrapper (source: middleware.go chainAgentMiddleware:
the Go loop wraps handler from the last index down to index 0). -/
def chainAgentMiddleware (handler : AgentHandler)
    (mws : List AgentMiddleware) : AgentHandler :=
  mws.foldr (fun m h => m h) handler

/-- ChatHandler (source: middleware.go). -/
abbrev ChatHandler := List Message → ChatOptions → Except String ChatResponse

/-- ChatMiddleware wraps a ChatHandler (source: middleware.go). -/
abbrev ChatMiddleware := ChatHandler → ChatHandler

/-- chainChatMiddleware applies middleware in order, first in the list
being the outermost wrapper (source: middleware.go chainChatMiddleware). -/
def chainChatMiddleware (handler : ChatHandler)
    (mws : List ChatMiddleware) : ChatHandler :=
  mws.foldr (fun m h => m h) handler

/-- A system message with one text content (used by the trace middleware
below). -/
def sysTextMessage (t : String) : Message :=
  { role := RoleSystem, contents := [Content.text t] }

/-- A recording agent middleware: appends a name:pre marker message to the
request before calling next and a name:post marker to the response after
(models the execution-trace middleware of the spec's interleaving test). -/
def traceAgentMiddleware (name : String) : AgentMiddleware :=
  fun next req =>
    match next { req with
        messages := req.messages ++ [sysTextMessage (name ++ ":pre")] } with
    | Except.ok resp =>
        Except.ok { resp with
          messages := resp.messages ++ [sysTextMessage (name ++ ":post")] }
    | Except.error e => Except.error e

/-- A core agent handler echoing the request messages into the response. -/
def echoAgentHandler : AgentHandler :=
  fun req => Except.ok { messages := req.messages }

/-- A recording chat middleware, like traceAgentMiddleware. -/
def traceChatMiddleware (name : String) : ChatMiddleware :=
  fun next msgs opts =>
    match next (msgs ++ [sysTextMessage (name ++ ":pre")]) opts with
    | Except.ok resp =>
        Except.ok { resp with
          messages := resp.messages ++ [sysTextMessage (name ++ ":post")] }
    | Except.error e => Except.error e

/-- A core chat handler echoing the request messages into the response. -/
def echoChatHandler : ChatHandler :=
  fun msgs _ => Except.ok { messages := msgs }

/-- A recording function middleware: brackets the argument string with a
name:pre marker on the way in and the result with a name:post marker on
the way out. -/
def traceFunctionMiddleware (name : String) : FunctionMiddleware :=
  fun next tool args =>
    match next tool (args ++ "<" ++ name ++ ":pre>") with
    | Except.ok r => Except.ok (r ++ "<" ++ name ++ ":post>")
    | Except.error e => Except.error e

/-- A core function handler echoing its argument string. -/
def echoFunctionHandler : FunctionHandler :=
  fun _ args => Except.ok args

/-- The pre-markers of the function trace in list order. -/
def preMarkers : List String → String
  | [] => ""
  | n :: rest => "<" ++ n ++ ":pre>" ++ preMarkers rest

/-- The post-markers of the function trace in reverse list order. -/
def postMarkers : List String → String
  | [] => ""
  | n :: rest => postMarkers rest ++ "<" ++ n ++ ":post>"

/-! ### Option merging -/

/-- Overlay of the Go map[string]string semantics on an association list:
keys of override win, remaining base keys survive (key order is
immaterial map state). -/
def mergeStringMap (base override : List (String × String)) :
    List (String × String) :=
  base.filter (fun p => !(override.any (fun q => q.1 == p.1))) ++ override

/-- The tool merge of MergeChatOptions (source: options.go, the Tools
block): a name-keyed map is filled with base then override tools (last
write wins), then rebuilt in order — every base tool position yields the
map's winner for that name, then override tools whose names are not among
the base names are appended (the source's seen set marks exactly the base
names). -/
def mergeToolLists (baseTools overrideTools : List Tool) : List Tool :=
  baseTools.map (fun t => (lookupTool (baseTools ++ overrideTools) t.name).getD t)
    ++ overrideTools.filter (fun t => !(baseTools.any (fun b => b.name == t.name)))

/-- MergeChatOptions (source: options.go MergeChatOptions): overlay
override onto base; nil/zero-valued override fields keep the base value,
instructions concatenate with a newline, tools merge by name, metadata
and extra merge per key. -/
def MergeChatOptions (base override : Option ChatOptions) : ChatOptions :=
  match base, override with
  | none, none => {}
  | none, some o => o
  | some b, none => b
  | some b, some o =>
    { b with
      modelID := if o.modelID ≠ "" then o.modelID else b.modelID
      temperature := if o.temperature.isSome then o.temperature else b.temperature
      topP := if o.topP.isSome then o.topP else b.topP
      maxTokens := if o.maxTokens.isSome then o.maxTokens else b.maxTokens
      stop := if o.stop ≠ [] then o.stop else b.stop
      seed := if o.seed.isSome then o.seed else b.seed
      frequencyPenalty :=
        if o.frequencyPenalty.isSome then o.frequencyPenalty else b.frequencyPenalty
      presencePenalty :=
        if o.presencePenalty.isSome then o.presencePenalty else b.presencePenalty
      toolChoice := if o.toolChoice ≠ "" then o.toolChoice else b.toolChoice
      responseFormat :=
        if o.responseFormat.isSome then o.responseFormat else b.responseFormat
      user := if o.user ≠ "" then o.user else b.user
      conversationID :=
        if o.conversationID ≠ "" then o.conversationID else b.conversationID
      store := if o.store.isSome then o.store else b.store
      instructions :=
        if o.instructions ≠ "" then
          (if b.instructions ≠ "" then b.instructions ++ "\n" ++ o.instructions
           else o.instructions)
        else b.instructions
      tools := if o.tools.isEmpty then b.tools else mergeToolLists b.tools o.tools
      metadata :=
        if o.metadata ≠ [] then mergeStringMap b.metadata o.metadata else b.metadata
      extra := if o.extra ≠ [] then mergeStringMap b.extra o.extra else b.extra }

/-- The Agent fields read by prepareChatOptions (source: agent.go). -/
structure Agent where
  instructions : String := ""
  tools : List Tool := []
  defaultOptions : Option ChatOptions := none

/-- The per-call run configuration read by prepareChatOptions (source:
agent.go runConfig; the session field is not read there). -/
structure RunConfig where
  tools : List Tool := []
  options : Option ChatOptions := none

/-- prepareChatOptions (source: agent.go Agent.prepareChatOptions): merge
per-call options over agent defaults, then overwrite the tool list with
the concatenation of agent tools and per-call tools when non-empty, then
prepend the agent instructions with a newline separator. -/
def prepareChatOptions (a : Agent) (cfg : RunConfig) : ChatOptions :=
  let opts := MergeChatOptions a.defaultOptions cfg.options
  let allTools := a.tools ++ cfg.tools
  let opts := if allTools.isEmpty then opts else { opts with tools := allTools }
  if a.instructions ≠ "" then
    if opts.instructions ≠ "" then
      { opts with instructions := a.instructions ++ "\n" ++ opts.instructions }
    else
      { opts with instructions := a.instructions }
  else opts

/-! ### String helper lemmas (Go strings under concatenation) -/

theorem string_eq_empty_iff (s : String) : s = "" ↔ s.data = [] := by
  rw [String.ext_iff]

theorem string_length_pos_iff (s : String) : s.length > 0 ↔ s ≠ "" := by
  cases s with
  | mk data =>
    simp only [ne_eq, string_eq_empty_iff]
    show 0 < data.length ↔ ¬data = []
    simp [List.length_pos]

theorem string_append_ne_empty_right (a b : String) (h : b ≠ "") : a ++ b ≠ "" := by
  simp only [ne_eq, string_eq_empty_iff] at h ⊢
  simp only [String.data_append, List.append_eq_nil]
  intro hc
  exact h hc.2

theorem string_append_ne_empty_left (a b : String) (h : a ≠ "") : a ++ b ≠ "" := by
  simp only [ne_eq, string_eq_empty_iff] at h ⊢
  simp only [String.data_append, List.append_eq_nil]
  intro hc
  exact h hc.1

/-! ### Equivalence of the source merge loop with the spec-side collapse -/

theorem collapseStep_text_empty (l : List Content) :
    collapseStep (Content.text "") l = l := by
  cases l with
  | nil => simp [collapseStep]
  | cons c r => cases c <;> simp [collapseStep, String.empty_append]

theorem collapseStep_text_text (t s : String) (l : List Content) :
    collapseStep (Content.text (t ++ s)) l
      = collapseStep (Content.text t) (collapseStep (Content.text s) l) := by
  by_cases hs : s = ""
  · subst hs
    rw [String.append_empty]
    cases l with
    | nil => simp [collapseStep]
    | cons c r => cases c <;> simp [collapseStep, String.empty_append]
  · have hts : t ++ s ≠ "" := string_append_ne_empty_right t s hs
    cases l with
    | nil => simp [collapseStep, hs, hts]
    | cons c r =>
      cases c <;> simp [collapseStep, hs, hts, String.append_assoc]

theorem collapseRuns_cons (c : Content) (l : List Content) :
    collapseRuns (c :: l) = collapseStep c (collapseRuns l) := rfl

theorem collapseRuns_step_append (x : Content) (m ys : List Content) :
    collapseRuns (collapseStep x m ++ ys) = collapseStep x (collapseRuns (m ++ ys)) := by
  cases x with
  | text t =>
    cases m with
    | nil =>
      by_cases ht : t = ""
      · subst ht
        rw [collapseStep_text_empty, collapseStep_text_empty]
      · simp [collapseStep, ht, collapseRuns_cons]
    | cons c' r =>
      cases c' with
      | text u =>
        show collapseRuns (Content.text (t ++ u) :: r ++ ys) = _
        rw [List.cons_append, collapseRuns_cons, collapseStep_text_text]
        rfl
      | functionCall a b c =>
        by_cases ht : t = ""
        · subst ht
          rw [collapseStep_text_empty, collapseStep_text_empty]
        · simp [collapseStep, ht, collapseRuns_cons]
      | functionResult a b =>
        by_cases ht : t = ""
        · subst ht
          rw [collapseStep_text_empty, collapseStep_text_empty]
        · simp [collapseStep, ht, collapseRuns_cons]
      | approvalRequest a b c =>
        by_cases ht : t = ""
        · subst ht
          rw [collapseStep_text_empty, collapseStep_text_empty]
        · simp [collapseStep, ht, collapseRuns_cons]
      | other a =>
        by_cases ht : t = ""
        · subst ht
          rw [collapseStep_text_empty, collapseStep_text_empty]
        · simp [collapseStep, ht, collapseRuns_cons]
  | functionCall a b c => simp [collapseStep, collapseRuns_cons]
  | functionResult a b => simp [collapseStep, collapseRuns_cons]
  | approvalRequest a b c => simp [collapseStep, collapseRuns_cons]
  | other a => simp [collapseStep, collapseRuns_cons]

theorem collapseRuns_collapse_left (xs ys : List Content) :
    collapseRuns (collapseRuns xs ++ ys) = collapseRuns (xs ++ ys) := by
  induction xs with
  | nil => rfl
  | cons x xs' ih =>
    rw [collapseRuns_cons, collapseRuns_step_append, ih, List.cons_append,
      collapseRuns_cons]

theorem collapseRuns_idem (xs : List Content) :
    collapseRuns (collapseRuns xs) = collapseRuns xs := by
  have h := collapseRuns_collapse_left xs []
  simpa using h

theorem collapseRuns_collapse_right (xs ys : List Content) :
    collapseRuns (xs ++ collapseRuns ys) = collapseRuns (xs ++ ys) := by
  induction xs with
  | nil => simpa using collapseRuns_idem ys
  | cons x xs' ih =>
    rw [List.cons_append, collapseRuns_cons, ih, List.cons_append, collapseRuns_cons]

theorem collapseRuns_collapse_both (xs ys : List Content) :
    collapseRuns (collapseRuns xs ++ collapseRuns ys) = collapseRuns (xs ++ ys) := by
  rw [collapseRuns_collapse_left, collapseRuns_collapse_right]

theorem mergeLoop_eq (cs : List Content) :
    ∀ (merged : List Content) (buf : String),
      mergeLoop cs merged buf
        = merged ++ collapseStep (Content.text buf) (collapseRuns cs) := by
  induction cs with
  | nil =>
    intro merged buf
    show flushText merged buf = _
    by_cases hb : buf = ""
    · subst hb
      simp [flushText, collapseStep, collapseRuns]
    · have : buf.length > 0 := (string_length_pos_iff buf).mpr hb
      simp [flushText, this, collapseStep, collapseRuns, hb]
  | cons c rest ih =>
    intro merged buf
    cases c with
    | text t =>
      show mergeLoop rest merged (buf ++ t) = _
      rw [ih, collapseRuns_cons, ← collapseStep_text_text]
    | functionCall a b c =>
      show mergeLoop rest (flushText merged buf ++ [_]) "" = _
      rw [ih, collapseStep_text_empty, collapseRuns_cons]
      by_cases hb : buf = ""
      · subst hb
        simp [flushText, collapseStep]
      · have : buf.length > 0 := (string_length_pos_iff buf).mpr hb
        simp [flushText, this, collapseStep, hb]
    | functionResult a b =>
      show mergeLoop rest (flushText merged buf ++ [_]) "" = _
      rw [ih, collapseStep_text_empty, collapseRuns_cons]
      by_cases hb : buf = ""
      · subst hb
        simp [flushText, collapseStep]
      · have : buf.length > 0 := (string_length_pos_iff buf).mpr hb
        simp [flushText, this, collapseStep, hb]
    | approvalRequest a b c =>
      show mergeLoop rest (flushText merged buf ++ [_]) "" = _
      rw [ih, collapseStep_text_empty, collapseRuns_cons]
      by_cases hb : buf = ""
      · subst hb
        simp [flushText, collapseStep]
      · have : buf.length > 0 := (string_length_pos_iff buf).mpr hb
        simp [flushText, this, collapseStep, hb]
    | other a =>
      show mergeLoop rest (flushText merged buf ++ [_]) "" = _
      rw [ih, collapseStep_text_empty, collapseRuns_cons]
      by_cases hb : buf = ""
      · subst hb
        simp [flushText, collapseStep]
      · have : buf.length > 0 := (string_length_pos_iff buf).mpr hb
        simp [flushText, this, collapseStep, hb]

theorem mergeContentDeltas_eq_collapseRuns (cs : List Content) :
    mergeContentDeltas cs = collapseRuns cs := by
  cases cs with
  | nil => rfl
  | cons c rest =>
    show mergeLoop (c :: rest) [] "" = _
    rw [mergeLoop_eq, collapseStep_text_empty]
    rfl

/-! ### Field-fold lemmas for the update merge -/

theorem contents_foldl_eq_flatten (us : List ChatResponseUpdate) :
    ∀ a : List Content,
      us.foldl (fun acc u => acc ++ u.contents) a
        = a ++ (us.map ChatResponseUpdate.contents).flatten := by
  induction us with
  | nil => intro a; simp
  | cons u us' ih =>
    intro a
    simp only [List.foldl_cons, List.map_cons, List.flatten]
    rw [ih, List.append_assoc]

theorem updateFields_foldl_responseID (us : List ChatResponseUpdate) :
    ∀ r : ChatResponse,
      (us.foldl updateFields r).responseID
        = us.foldl (fun a u => if u.responseID ≠ "" then u.responseID else a) r.responseID := by
  induction us with
  | nil => intro r; rfl
  | cons u us' ih => intro r; simp only [List.foldl_cons]; rw [ih]; rfl

theorem updateFields_foldl_conversationID (us : List ChatResponseUpdate) :
    ∀ r : ChatResponse,
      (us.foldl updateFields r).conversationID
        = us.foldl (fun a u => if u.conversationID ≠ "" then u.conversationID else a) r.conversationID := by
  induction us with
  | nil => intro r; rfl
  | cons u us' ih => intro r; simp only [List.foldl_cons]; rw [ih]; rfl

theorem updateFields_foldl_modelID (us : List ChatResponseUpdate) :
    ∀ r : ChatResponse,
      (us.foldl updateFields r).modelID
        = us.foldl (fun a u => if u.modelID ≠ "" then u.modelID else a) r.modelID := by
  induction us with
  | nil => intro r; rfl
  | cons u us' ih => intro r; simp only [List.foldl_cons]; rw [ih]; rfl

theorem updateFields_foldl_finishReason (us : List ChatResponseUpdate) :
    ∀ r : ChatResponse,
      (us.foldl updateFields r).finishReason
        = us.foldl (fun a u => if u.finishReason ≠ "" then u.finishReason else a) r.finishReason := by
  induction us with
  | nil => intro r; rfl
  | cons u us' ih => intro r; simp only [List.foldl_cons]; rw [ih]; rfl

theorem updateFields_foldl_usage (us : List ChatResponseUpdate) :
    ∀ r : ChatResponse,
      (us.foldl updateFields r).usage
        = us.foldl (fun a u => if u.usage.totalTokens > 0 then u.usage else a) r.usage := by
  induction us with
  | nil => intro r; rfl
  | cons u us' ih => intro r; simp only [List.foldl_cons]; rw [ih]; rfl

theorem updateFields_foldl_messages (us : List ChatResponseUpdate) :
    ∀ r : ChatResponse, (us.foldl updateFields r).messages = r.messages := by
  induction us with
  | nil => intro r; rfl
  | cons u us' ih => intro r; simp only [List.foldl_cons]; rw [ih]; rfl

theorem chatResponseFromUpdates_eq_mergeSpec (us : List ChatResponseUpdate) :
    chatResponseFromUpdates us = mergeSpec us := by
  simp only [chatResponseFromUpdates, mergeSpec]
  rw [contents_foldl_eq_flatten us [], List.nil_append, mergeContentDeltas_eq_collapseRuns]
  have hResp : us.foldl updateFields {} =
      ({ responseID := lastNonEmpty (us.map ChatResponseUpdate.responseID)
         conversationID := lastNonEmpty (us.map ChatResponseUpdate.conversationID)
         modelID := lastNonEmpty (us.map ChatResponseUpdate.modelID)
         finishReason := lastNonEmpty (us.map ChatResponseUpdate.finishReason)
         usage := lastUsage (us.map ChatResponseUpdate.usage) } : ChatResponse) := by
    have h1 := updateFields_foldl_responseID us {}
    have h2 := updateFields_foldl_conversationID us {}
    have h3 := updateFields_foldl_modelID us {}
    have h4 := updateFields_foldl_finishReason us {}
    have h5 := updateFields_foldl_usage us {}
    apply ChatResponse.ext
    · simp only [updateFields_foldl_messages us ({} : ChatResponse)]
    · simp only [h1, lastNonEmpty, List.foldl_map]
    · simp only [h2, lastNonEmpty, List.foldl_map]
    · simp only [h3, lastNonEmpty, List.foldl_map]
    · simp only [h4, lastNonEmpty, List.foldl_map]
    · simp only [h5, lastUsage, List.foldl_map]
  rw [hResp]
  by_cases hc : collapseRuns (us.map ChatResponseUpdate.contents).flatten = []
  · simp [hc]
  · have hlen : (collapseRuns (us.map ChatResponseUpdate.contents).flatten).length > 0 := by
      cases h : collapseRuns (us.map ChatResponseUpdate.contents).flatten with
      | nil => exact absurd h hc
      | cons a l => simp
    rw [if_pos hlen, if_neg hc]
    simp only [roleOfUpdates]

/-! ### Merge-combination lemmas -/

theorem foldl_last_init (l : List String) :
    ∀ a : String,
      l.foldl (fun acc s => if s ≠ "" then s else acc) a
        = if lastNonEmpty l = "" then a else lastNonEmpty l := by
  induction l with
  | nil => intro a; simp [lastNonEmpty]
  | cons s l' ih =>
    intro a
    have hl : lastNonEmpty (s :: l')
        = l'.foldl (fun acc x => if x ≠ "" then x else acc)
            (if s ≠ "" then s else "") := by
      simp [lastNonEmpty]
    rw [hl, ih, List.foldl_cons, ih]
    by_cases hL : lastNonEmpty l' = ""
    · by_cases hs : s = "" <;> simp [hL, hs]
    · simp [hL]

theorem lastNonEmpty_append (xs ys : List String) :
    lastNonEmpty (xs ++ ys)
      = if lastNonEmpty ys = "" then lastNonEmpty xs else lastNonEmpty ys := by
  have : lastNonEmpty (xs ++ ys)
      = ys.foldl (fun acc s => if s ≠ "" then s else acc) (lastNonEmpty xs) := by
    simp [lastNonEmpty, List.foldl_append]
  rw [this, foldl_last_init]

theorem lastNonEmpty_pair (a b : String) :
    lastNonEmpty [a, b] = if b = "" then a else b := by
  by_cases hb : b = "" <;> by_cases ha : a = "" <;>
    simp [lastNonEmpty, ha, hb]

theorem mergeSpec_flatten (us : List ChatResponseUpdate) :
    ((mergeSpec us).messages.map Message.contents).flatten
      = collapseRuns (us.map ChatResponseUpdate.contents).flatten := by
  simp only [mergeSpec]
  by_cases h : collapseRuns (us.map ChatResponseUpdate.contents).flatten = [] <;>
    simp [h]

theorem lastNonEmpty_single (a : String) : lastNonEmpty [a] = a := by
  by_cases h : a = "" <;> simp [lastNonEmpty, h]

theorem updateOfResponse_contents (r : ChatResponse) :
    (updateOfResponse r).contents = (r.messages.map Message.contents).flatten := rfl

theorem updateOfResponse_responseID (r : ChatResponse) :
    (updateOfResponse r).responseID = r.responseID := rfl

theorem updateOfResponse_conversationID (r : ChatResponse) :
    (updateOfResponse r).conversationID = r.conversationID := rfl

theorem updateOfResponse_modelID (r : ChatResponse) :
    (updateOfResponse r).modelID = r.modelID := rfl

theorem updateOfResponse_finishReason (r : ChatResponse) :
    (updateOfResponse r).finishReason = r.finishReason := rfl

theorem mergeSpec_responseID (us : List ChatResponseUpdate) :
    (mergeSpec us).responseID = lastNonEmpty (us.map ChatResponseUpdate.responseID) := rfl

theorem mergeSpec_conversationID (us : List ChatResponseUpdate) :
    (mergeSpec us).conversationID = lastNonEmpty (us.map ChatResponseUpdate.conversationID) := rfl

theorem mergeSpec_modelID (us : List ChatResponseUpdate) :
    (mergeSpec us).modelID = lastNonEmpty (us.map ChatResponseUpdate.modelID) := rfl

theorem mergeSpec_finishReason (us : List ChatResponseUpdate) :
    (mergeSpec us).finishReason = lastNonEmpty (us.map ChatResponseUpdate.finishReason) := rfl

/-- C5: counterexample to the claim as stated.  The claim says the merged
message's role comes from the first update that specifies one; the code
takes the role only from updates[0] (default assistant).  With the first
update role-less and the second carrying role "user", the code produces an
assistant message where the claimed description produces a "user" one. -/
theorem claim5_role_counterexample :
    chatResponseFromUpdates
        [{ contents := [Content.text "a"] }, { role := "user" }]
      ≠ mergeClaimed
        [{ contents := [Content.text "a"] }, { role := "user" }] := by
  decide

/-- C5 (amended): the merge concatenates all content items in arrival
order, takes the last non-empty response id, conversation id, model id and
finish reason, takes the usage of the last update with non-zero usage
total, collapses runs of adjacent plain-text items (non-text items pass
through, flushing the accumulator), and places the result in one message
whose role comes from the FIRST update when that update specifies one
(default assistant) — later updates' roles are ignored.  Includes the
claim's example: updates [assistant "Hello, ", "world!",
finish stop + usage total 8] merge to one assistant message
"Hello, world!" with finish reason stop and total tokens 8. -/
theorem claim5_merge_characterization :
    (∀ us : List ChatResponseUpdate, chatResponseFromUpdates us = mergeSpec us)
    ∧ chatResponseFromUpdates
        [{ contents := [Content.text "Hello, "], role := RoleAssistant },
         { contents := [Content.text "world!"] },
         { finishReason := "stop",
           usage := { inputTokens := 5, outputTokens := 3, totalTokens := 8 } }]
      = { messages := [{ role := RoleAssistant,
                         contents := [Content.text "Hello, world!"] }],
          finishReason := "stop",
          usage := { inputTokens := 5, outputTokens := 3, totalTokens := 8 } } :=
  ⟨chatResponseFromUpdates_eq_mergeSpec, by decide⟩

/-- C6: the update merge is idempotent on a single-element sequence that
already represents a complete (collapsed) response, and associative: for
every sequence and split point k, merging the merge of the first k updates
with the merge of the rest is content-equal (same concatenated content,
same last-non-empty-wins fields) to merging the whole sequence. -/
theorem claim6_merge_idempotent_associative :
    (∀ u : ChatResponseUpdate,
      collapseRuns u.contents = u.contents → u.contents ≠ [] → u.role ≠ "" →
      (u.usage.totalTokens = 0 → u.usage = {}) →
      chatResponseFromUpdates [u]
        = { messages := [{ role := u.role, contents := u.contents }],
            responseID := u.responseID, conversationID := u.conversationID,
            modelID := u.modelID, finishReason := u.finishReason,
            usage := u.usage })
    ∧ (∀ (us : List ChatResponseUpdate) (k : Nat),
        contentEqual (splitMerge us k) (chatResponseFromUpdates us)) := by
  constructor
  · intro u hcol hne hrole husage
    rw [chatResponseFromUpdates_eq_mergeSpec]
    apply ChatResponse.ext
    · simp only [mergeSpec, List.map_cons, List.map_nil, List.flatten_cons,
        List.flatten_nil, List.append_nil, hcol]
      rw [if_neg hne]
      simp [roleOfUpdates, hrole]
    · simp [mergeSpec, lastNonEmpty_single]
    · simp [mergeSpec, lastNonEmpty_single]
    · simp [mergeSpec, lastNonEmpty_single]
    · simp [mergeSpec, lastNonEmpty_single]
    · simp only [mergeSpec, List.map_cons, List.map_nil, lastUsage,
        List.foldl_cons, List.foldl_nil]
      by_cases ht : u.usage.totalTokens > 0
      · simp [ht]
      · have h0 : u.usage.totalTokens = 0 := by omega
        simp [ht, (husage h0).symm]
  · intro us k
    unfold splitMerge
    simp only [chatResponseFromUpdates_eq_mergeSpec]
    refine ⟨?_, ?_, ?_, ?_, ?_⟩
    · rw [mergeSpec_flatten, mergeSpec_flatten]
      simp only [List.map_cons, List.map_nil, List.flatten_cons, List.flatten_nil,
        List.append_nil, updateOfResponse_contents, mergeSpec_flatten]
      rw [collapseRuns_collapse_both, ← List.flatten_append, ← List.map_append,
        List.take_append_drop]
    · rw [mergeSpec_responseID, mergeSpec_responseID]
      simp only [List.map_cons, List.map_nil, updateOfResponse_responseID,
        mergeSpec_responseID]
      have hsplit : us.map ChatResponseUpdate.responseID
          = (us.take k).map ChatResponseUpdate.responseID
            ++ (us.drop k).map ChatResponseUpdate.responseID := by
        rw [← List.map_append, List.take_append_drop]
      rw [hsplit, lastNonEmpty_append, lastNonEmpty_pair]
    · rw [mergeSpec_conversationID, mergeSpec_conversationID]
      simp only [List.map_cons, List.map_nil, updateOfResponse_conversationID,
        mergeSpec_conversationID]
      have hsplit : us.map ChatResponseUpdate.conversationID
          = (us.take k).map ChatResponseUpdate.conversationID
            ++ (us.drop k).map ChatResponseUpdate.conversationID := by
        rw [← List.map_append, List.take_append_drop]
      rw [hsplit, lastNonEmpty_append, lastNonEmpty_pair]
    · rw [mergeSpec_modelID, mergeSpec_modelID]
      simp only [List.map_cons, List.map_nil, updateOfResponse_modelID,
        mergeSpec_modelID]
      have hsplit : us.map ChatResponseUpdate.modelID
          = (us.take k).map ChatResponseUpdate.modelID
            ++ (us.drop k).map ChatResponseUpdate.modelID := by
        rw [← List.map_append, List.take_append_drop]
      rw [hsplit, lastNonEmpty_append, lastNonEmpty_pair]
    · rw [mergeSpec_finishReason, mergeSpec_finishReason]
      simp only [List.map_cons, List.map_nil, updateOfResponse_finishReason,
        mergeSpec_finishReason]
      have hsplit : us.map ChatResponseUpdate.finishReason
          = (us.take k).map ChatResponseUpdate.finishReason
            ++ (us.drop k).map ChatResponseUpdate.finishReason := by
        rw [← List.map_append, List.take_append_drop]
      rw [hsplit, lastNonEmpty_append, lastNonEmpty_pair]

/-- C6 witness: the idempotence part applied to a concrete complete
update, and the associativity part applied to a concrete three-update
sequence at split point 1. -/
theorem claim6_witness :
    chatResponseFromUpdates
        [{ contents := [Content.text "hi"], role := RoleAssistant,
           responseID := "r1", conversationID := "c1", modelID := "m1",
           finishReason := "stop",
           usage := { inputTokens := 1, outputTokens := 2, totalTokens := 3 } }]
      = { messages := [{ role := RoleAssistant, contents := [Content.text "hi"] }],
          responseID := "r1", conversationID := "c1", modelID := "m1",
          finishReason := "stop",
          usage := { inputTokens := 1, outputTokens := 2, totalTokens := 3 } }
    ∧ contentEqual
        (splitMerge
          [{ contents := [Content.text "He"], role := RoleAssistant },
           { contents := [Content.text "llo"] },
           { finishReason := "stop", responseID := "r9" }] 1)
        (chatResponseFromUpdates
          [{ contents := [Content.text "He"], role := RoleAssistant },
           { contents := [Content.text "llo"] },
           { finishReason := "stop", responseID := "r9" }]) :=
  ⟨claim6_merge_idempotent_associative.1
      { contents := [Content.text "hi"], role := RoleAssistant,
        responseID := "r1", conversationID := "c1", modelID := "m1",
        finishReason := "stop",
        usage := { inputTokens := 1, outputTokens := 2, totalTokens := 3 } }
      (by decide) (by decide) (by decide) (by decide),
   claim6_merge_idempotent_associative.2
      [{ contents := [Content.text "He"], role := RoleAssistant },
       { contents := [Content.text "llo"] },
       { finishReason := "stop", responseID := "r9" }] 1⟩

/-! ### The invocation loop: termination and bounds -/

theorem invokeLoop_all_done (client : ChatClient) (cfg : InvocationConfig)
    (tools : List Tool) (invoke : Tool → String → Except String String)
    (h : ∀ (k : Nat) (msgs : List Message) (consec : Int),
      ∃ resp rms consec',
        client k msgs = Except.ok resp
        ∧ extractFunctionCalls resp ≠ []
        ∧ processCalls cfg tools invoke resp (extractFunctionCalls resp) [] consec
            = CallsOutcome.done rms consec') :
    ∀ (fuel iteration : Nat) (messages : List Message) (consec : Int),
      invokeLoop client cfg tools invoke fuel iteration messages consec
        = Except.error (LoopError.maxIterations cfg.maxIterations) := by
  intro fuel
  induction fuel with
  | zero => intro it msgs c; rfl
  | succ n ih =>
    intro it msgs c
    obtain ⟨resp, rms, c', hcl, hne, hdone⟩ := h it msgs c
    cases hex : extractFunctionCalls resp with
    | nil => exact absurd hex hne
    | cons call rest =>
      rw [hex] at hdone
      simp only [invokeLoop, hcl, hex, hdone]
      exact ih (it + 1) (msgs ++ resp.messages ++ rms) c'

/-- C1: if the backend response of an iteration contains no function-call
content, the loop terminates successfully at that iteration returning that
response as-is (structurally, with no further backend calls: the
recursion stops); and if every iteration's response contains pending
function calls whose batch completes normally (known, non-approval,
non-declaration-only invocations, no fatal error), all MaxIterations
iterations are consumed and the loop fails with the execution error
reporting MaxIterations. -/
theorem claim1_loop_termination :
    (∀ (client : ChatClient) (cfg : InvocationConfig) (tools : List Tool)
        (invoke : Tool → String → Except String String)
        (fuel iteration : Nat) (messages : List Message) (consec : Int)
        (resp : ChatResponse),
      client iteration messages = Except.ok resp →
      extractFunctionCalls resp = [] →
      invokeLoop client cfg tools invoke (fuel + 1) iteration messages consec
        = Except.ok resp)
    ∧ (∀ (client : ChatClient) (opts : ChatOptions) (config : InvocationConfig)
        (mws : List FunctionMiddleware) (messages : List Message),
      (∀ (k : Nat) (msgs : List Message) (consec : Int),
        ∃ resp rms consec',
          client k msgs = Except.ok resp
          ∧ extractFunctionCalls resp ≠ []
          ∧ processCalls (normalizeConfig config) opts.tools
              (fun t a => invokeToolWithMiddleware t a mws) resp
              (extractFunctionCalls resp) [] consec
              = CallsOutcome.done rms consec') →
      invokeFunctions client messages opts config mws
        = Except.error
            (LoopError.maxIterations (normalizeConfig config).maxIterations)) := by
  constructor
  · intro client cfg tools invoke fuel iteration messages consec resp hclient hempty
    simp only [invokeLoop, hclient, hempty]
  · intro client opts config mws messages h
    exact invokeLoop_all_done client (normalizeConfig config) opts.tools
      (fun t a => invokeToolWithMiddleware t a mws) h
      (normalizeConfig config).maxIterations.toNat 0 messages 0

/-- C1 witness: a backend whose first response has no function calls makes
the loop return it at once; a backend that always requests one successful
tool call exhausts a 2-iteration budget with the MaxIterations error. -/
theorem claim1_witness :
    invokeLoop (constClient (textResponse "done")) (normalizeConfig {}) []
        (fun t a => invokeToolWithMiddleware t a []) 1 0 [] 0
      = Except.ok (textResponse "done")
    ∧ invokeFunctions (constClient (singleCallResponse "add")) []
        { tools := [alwaysOkTool "add" "7"] }
        { maxIterations := 2, maxConsecutiveErrors := 3 } []
      = Except.error (LoopError.maxIterations 2) :=
  ⟨claim1_loop_termination.1 (constClient (textResponse "done"))
      (normalizeConfig {}) [] (fun t a => invokeToolWithMiddleware t a [])
      0 0 [] 0 (textResponse "done") rfl rfl,
   claim1_loop_termination.2 (constClient (singleCallResponse "add"))
      { tools := [alwaysOkTool "add" "7"] }
      { maxIterations := 2, maxConsecutiveErrors := 3 } [] []
      (fun k msgs consec =>
        ⟨singleCallResponse "add", [newToolMessage "call-1" "7"], 0,
          rfl, by decide, rfl⟩)⟩

/-! ### The consecutive-error circuit breaker -/

theorem invokeLoop_always_fail (n e : String) (cfg : InvocationConfig)
    (invoke : Tool → String → Except String String)
    (hinv : ∀ a, invoke (alwaysFailTool n e) a = Except.error e) :
    ∀ (fuel iteration : Nat) (messages : List Message) (consec : Int),
      consec + (fuel : Int) ≥ cfg.maxConsecutiveErrors →
      consec + 1 ≤ cfg.maxConsecutiveErrors →
      invokeLoop (constClient (singleCallResponse n)) cfg [alwaysFailTool n e]
          invoke fuel iteration messages consec
        = Except.error
            (LoopError.maxConsecutiveErrors cfg.maxConsecutiveErrors) := by
  intro fuel
  induction fuel with
  | zero => intro it msgs c h1 h2; omega
  | succ m ih =>
    intro it msgs c h1 h2
    have hex : extractFunctionCalls (singleCallResponse n)
        = [{ callID := "call-1", name := n, arguments := "{}" }] := rfl
    have hlook : lookupTool [alwaysFailTool n e] n = some (alwaysFailTool n e) := by
      simp [lookupTool, alwaysFailTool]
    simp only [invokeLoop, constClient, hex, processCalls, hlook, hinv]
    have happ : ¬ (alwaysFailTool n e).approval = ApprovalAlways := by
      show ¬ "" = "always"
      decide
    rw [if_neg happ]
    have hdecl : ¬ (alwaysFailTool n e).declarationOnly = true := by
      show ¬ false = true
      decide
    rw [if_neg hdecl]
    by_cases hth : c + 1 ≥ cfg.maxConsecutiveErrors
    · rw [if_pos hth]
      have hc : c + 1 = cfg.maxConsecutiveErrors := le_antisymm h2 hth
      rw [hc]
    · rw [if_neg hth]
      exact ih (it + 1) _ (c + 1) (by push_cast at h1 ⊢; omega) (by omega)

theorem invokeLoop_under_budget (n e : String) (cfg : InvocationConfig)
    (invoke : Tool → String → Except String String)
    (hinv : ∀ a, invoke (alwaysFailTool n e) a = Except.error e) :
    ∀ (fuel iteration : Nat) (messages : List Message) (consec : Int),
      consec + (fuel : Int) + 1 ≤ cfg.maxConsecutiveErrors →
      invokeLoop (constClient (singleCallResponse n)) cfg [alwaysFailTool n e]
          invoke fuel iteration messages consec
        = Except.error (LoopError.maxIterations cfg.maxIterations) := by
  intro fuel
  induction fuel with
  | zero => intro it msgs c h1; rfl
  | succ m ih =>
    intro it msgs c h1
    have hex : extractFunctionCalls (singleCallResponse n)
        = [{ callID := "call-1", name := n, arguments := "{}" }] := rfl
    have hlook : lookupTool [alwaysFailTool n e] n = some (alwaysFailTool n e) := by
      simp [lookupTool, alwaysFailTool]
    simp only [invokeLoop, constClient, hex, processCalls, hlook, hinv]
    have happ : ¬ (alwaysFailTool n e).approval = ApprovalAlways := by
      show ¬ "" = "always"
      decide
    rw [if_neg happ]
    have hdecl : ¬ (alwaysFailTool n e).declarationOnly = true := by
      show ¬ false = true
      decide
    rw [if_neg hdecl]
    rw [if_neg (show ¬ c + 1 ≥ cfg.maxConsecutiveErrors by push_cast at h1; omega)]
    exact ih (it + 1) _ (c + 1) (by push_cast at h1 ⊢; omega)

/-- C2: for known, non-approval, non-declaration-only tools — each failed
invocation increments the consecutive-error counter (appending a
tool-result message with the raw error text when IncludeDetailedErrors is
set, or a generic placeholder otherwise), each success resets the counter
to 0, and the loop fails fatally with the tool-execution error exactly
when the incremented counter reaches MaxConsecutiveErrors.  A tool that
always fails trips the breaker exactly on the MaxConsecutiveErrors-th
consecutive failure (when the iteration budget allows it), and never trips
it earlier: with fewer iterations than the threshold the loop instead
exhausts MaxIterations. -/
theorem claim2_consecutive_error_breaker :
    (∀ (cfg : InvocationConfig) (tools : List Tool)
        (invoke : Tool → String → Except String String) (resp : ChatResponse)
        (call : FunctionCall) (rest : List FunctionCall) (rm : List Message)
        (consec : Int) (tool : Tool) (e : String),
      lookupTool tools call.name = some tool →
      tool.approval ≠ ApprovalAlways →
      tool.declarationOnly = false →
      invoke tool call.arguments = Except.error e →
      consec + 1 < cfg.maxConsecutiveErrors →
      processCalls cfg tools invoke resp (call :: rest) rm consec
        = processCalls cfg tools invoke resp rest
            (rm ++ [newToolMessage call.callID
              (if cfg.includeDetailedErrors then e else "error invoking tool")])
            (consec + 1))
    ∧ (∀ (cfg : InvocationConfig) (tools : List Tool)
        (invoke : Tool → String → Except String String) (resp : ChatResponse)
        (call : FunctionCall) (rest : List FunctionCall) (rm : List Message)
        (consec : Int) (tool : Tool) (e : String),
      lookupTool tools call.name = some tool →
      tool.approval ≠ ApprovalAlways →
      tool.declarationOnly = false →
      invoke tool call.arguments = Except.error e →
      consec + 1 ≥ cfg.maxConsecutiveErrors →
      processCalls cfg tools invoke resp (call :: rest) rm consec
        = CallsOutcome.fatal (LoopError.maxConsecutiveErrors (consec + 1)))
    ∧ (∀ (cfg : InvocationConfig) (tools : List Tool)
        (invoke : Tool → String → Except String String) (resp : ChatResponse)
        (call : FunctionCall) (rest : List FunctionCall) (rm : List Message)
        (consec : Int) (tool : Tool) (result : String),
      lookupTool tools call.name = some tool →
      tool.approval ≠ ApprovalAlways →
      tool.declarationOnly = false →
      invoke tool call.arguments = Except.ok result →
      processCalls cfg tools invoke resp (call :: rest) rm consec
        = processCalls cfg tools invoke resp rest
            (rm ++ [newToolMessage call.callID result]) 0)
    ∧ (∀ (n e : String) (detailed : Bool) (mi mce : Int)
        (messages : List Message),
      1 ≤ mce → mce ≤ mi →
      invokeFunctions (constClient (singleCallResponse n)) messages
          { tools := [alwaysFailTool n e] }
          { maxIterations := mi, maxConsecutiveErrors := mce,
            includeDetailedErrors := detailed } []
        = Except.error (LoopError.maxConsecutiveErrors mce))
    ∧ (∀ (n e : String) (detailed : Bool) (mi mce : Int)
        (messages : List Message),
      1 ≤ mi → mi < mce →
      invokeFunctions (constClient (singleCallResponse n)) messages
          { tools := [alwaysFailTool n e] }
          { maxIterations := mi, maxConsecutiveErrors := mce,
            includeDetailedErrors := detailed } []
        = Except.error (LoopError.maxIterations mi)) := by
  refine ⟨?_, ?_, ?_, ?_, ?_⟩
  · intro cfg tools invoke resp call rest rm consec tool e h1 h2 h3 h4 h5
    simp only [processCalls, h1, h4]
    rw [if_neg h2, if_neg (show ¬ tool.declarationOnly = true by simp [h3]),
      if_neg (by omega)]
  · intro cfg tools invoke resp call rest rm consec tool e h1 h2 h3 h4 h5
    simp only [processCalls, h1, h4]
    rw [if_neg h2, if_neg (show ¬ tool.declarationOnly = true by simp [h3]),
      if_pos h5]
  · intro cfg tools invoke resp call rest rm consec tool result h1 h2 h3 h4
    simp only [processCalls, h1, h4]
    rw [if_neg h2, if_neg (show ¬ tool.declarationOnly = true by simp [h3])]
  · intro n e detailed mi mce messages h1 h2
    have hnorm : normalizeConfig { maxIterations := mi, maxConsecutiveErrors := mce, includeDetailedErrors := detailed } = { maxIterations := mi, maxConsecutiveErrors := mce, includeDetailedErrors := detailed } := by
      simp only [normalizeConfig]
      rw [if_neg (by omega), if_neg (by omega)]
    have heq : invokeFunctions (constClient (singleCallResponse n)) messages { tools := [alwaysFailTool n e] } { maxIterations := mi, maxConsecutiveErrors := mce, includeDetailedErrors := detailed } [] = invokeLoop (constClient (singleCallResponse n)) (normalizeConfig { maxIterations := mi, maxConsecutiveErrors := mce, includeDetailedErrors := detailed }) [alwaysFailTool n e] (fun t a => invokeToolWithMiddleware t a []) (normalizeConfig { maxIterations := mi, maxConsecutiveErrors := mce, includeDetailedErrors := detailed }).maxIterations.toNat 0 messages 0 := rfl
    rw [heq, hnorm]
    exact invokeLoop_always_fail n e _ _ (fun a => rfl) mi.toNat 0 messages 0
      (by simp only; omega) (by simp only; omega)
  · intro n e detailed mi mce messages h1 h2
    have hnorm : normalizeConfig { maxIterations := mi, maxConsecutiveErrors := mce, includeDetailedErrors := detailed } = { maxIterations := mi, maxConsecutiveErrors := mce, includeDetailedErrors := detailed } := by
      simp only [normalizeConfig]
      rw [if_neg (by omega), if_neg (by omega)]
    have heq : invokeFunctions (constClient (singleCallResponse n)) messages { tools := [alwaysFailTool n e] } { maxIterations := mi, maxConsecutiveErrors := mce, includeDetailedErrors := detailed } [] = invokeLoop (constClient (singleCallResponse n)) (normalizeConfig { maxIterations := mi, maxConsecutiveErrors := mce, includeDetailedErrors := detailed }) [alwaysFailTool n e] (fun t a => invokeToolWithMiddleware t a []) (normalizeConfig { maxIterations := mi, maxConsecutiveErrors := mce, includeDetailedErrors := detailed }).maxIterations.toNat 0 messages 0 := rfl
    rw [heq, hnorm]
    exact invokeLoop_under_budget n e _ _ (fun a => rfl) mi.toNat 0 messages 0
      (by simp only; omega)

/-- C2 witness: concrete instances of all five parts, with the default
configuration (threshold 3): a first failure appends the generic
placeholder and sets the counter to 1; a third consecutive failure trips
the breaker with count 3; a success resets the counter to 0; an
always-failing tool fails the whole loop with the consecutive-errors
error exactly at threshold 3, and with only 2 iterations available it
exhausts the iteration budget instead. -/
theorem claim2_witness :
    processCalls defaultInvocationConfig [alwaysFailTool "t" "boom"]
        (fun t a => t.invoke a) (singleCallResponse "t")
        [{ callID := "c1", name := "t", arguments := "{}" }] [] 0
      = CallsOutcome.done [newToolMessage "c1" "error invoking tool"] 1
    ∧ processCalls defaultInvocationConfig [alwaysFailTool "t" "boom"]
        (fun t a => t.invoke a) (singleCallResponse "t")
        [{ callID := "c1", name := "t", arguments := "{}" }] [] 2
      = CallsOutcome.fatal (LoopError.maxConsecutiveErrors 3)
    ∧ processCalls defaultInvocationConfig [alwaysOkTool "t" "ok"]
        (fun t a => t.invoke a) (singleCallResponse "t")
        [{ callID := "c1", name := "t", arguments := "{}" }] [] 2
      = CallsOutcome.done [newToolMessage "c1" "ok"] 0
    ∧ invokeFunctions (constClient (singleCallResponse "t")) []
        { tools := [alwaysFailTool "t" "boom"] }
        { maxIterations := 3, maxConsecutiveErrors := 3 } []
      = Except.error (LoopError.maxConsecutiveErrors 3)
    ∧ invokeFunctions (constClient (singleCallResponse "t")) []
        { tools := [alwaysFailTool "t" "boom"] }
        { maxIterations := 2, maxConsecutiveErrors := 5 } []
      = Except.error (LoopError.maxIterations 2) :=
  ⟨claim2_consecutive_error_breaker.1 defaultInvocationConfig
      [alwaysFailTool "t" "boom"] (fun t a => t.invoke a)
      (singleCallResponse "t") { callID := "c1", name := "t", arguments := "{}" }
      [] [] 0 (alwaysFailTool "t" "boom") "boom"
      rfl (by decide) rfl rfl (by decide),
   claim2_consecutive_error_breaker.2.1 defaultInvocationConfig
      [alwaysFailTool "t" "boom"] (fun t a => t.invoke a)
      (singleCallResponse "t") { callID := "c1", name := "t", arguments := "{}" }
      [] [] 2 (alwaysFailTool "t" "boom") "boom"
      rfl (by decide) rfl rfl (by decide),
   claim2_consecutive_error_breaker.2.2.1 defaultInvocationConfig
      [alwaysOkTool "t" "ok"] (fun t a => t.invoke a)
      (singleCallResponse "t") { callID := "c1", name := "t", arguments := "{}" }
      [] [] 2 (alwaysOkTool "t" "ok") "ok"
      rfl (by decide) rfl rfl,
   claim2_consecutive_error_breaker.2.2.2.1 "t" "boom" false 3 3 []
      (by decide) (by decide),
   claim2_consecutive_error_breaker.2.2.2.2 "t" "boom" false 2 5 []
      (by decide) (by decide)⟩

/-! ### Unknown-tool handling -/

theorem invokeLoop_step (client : ChatClient) (cfg : InvocationConfig)
    (tools : List Tool) (invoke : Tool → String → Except String String)
    (fuel iteration : Nat) (messages : List Message) (consec : Int)
    (resp : ChatResponse) (call : FunctionCall) (rest : List FunctionCall)
    (hcl : client iteration messages = Except.ok resp)
    (hex : extractFunctionCalls resp = call :: rest) :
    invokeLoop client cfg tools invoke (fuel + 1) iteration messages consec
      = match processCalls cfg tools invoke resp (call :: rest) [] consec with
        | CallsOutcome.fatal e => Except.error e
        | CallsOutcome.earlyReturn r => Except.ok r
        | CallsOutcome.done rms consec' =>
            invokeLoop client cfg tools invoke fuel (iteration + 1)
              (messages ++ resp.messages ++ rms) consec' := by
  simp only [invokeLoop, hcl, hex]

theorem processCalls_unknown_run (cfg : InvocationConfig) (tools : List Tool)
    (invoke : Tool → String → Except String String) (resp : ChatResponse)
    (hterm : cfg.terminateOnUnknown = false) :
    ∀ (ucalls rest : List FunctionCall) (rm : List Message) (consec : Int),
      (∀ c ∈ ucalls, lookupTool tools c.name = none) →
      processCalls cfg tools invoke resp (ucalls ++ rest) rm consec
        = processCalls cfg tools invoke resp rest
            (rm ++ ucalls.map (fun c => newToolMessage c.callID "error: unknown tool"))
            (consec + ucalls.length) := by
  intro ucalls
  induction ucalls with
  | nil => intro rest rm consec h; simp
  | cons c cs ih =>
    intro rest rm consec h
    have hc : lookupTool tools c.name = none := h c (by simp)
    simp only [List.cons_append, processCalls, hc, hterm]
    rw [if_neg (show ¬ (false = true) by simp)]
    rw [List.append_eq, ih rest _ _ (fun x hx => h x (List.mem_cons_of_mem c hx))]
    congr 1
    · simp
    · simp only [List.length_cons]
      push_cast
      omega

theorem processCalls_unknownPre (n : String) (mi mce : Int) (consec : Int) :
    processCalls (normalizeConfig { maxIterations := mi, maxConsecutiveErrors := mce })
        [] (fun t a => invokeToolWithMiddleware t a []) (singleCallResponse n)
        [{ callID := "call-1", name := n, arguments := "{}" }] [] consec
      = CallsOutcome.done [newToolMessage "call-1" "error: unknown tool"]
          (consec + 1) := by
  have hpc := processCalls_unknown_run
    (normalizeConfig { maxIterations := mi, maxConsecutiveErrors := mce }) []
    (fun t a => invokeToolWithMiddleware t a []) (singleCallResponse n) rfl
    [{ callID := "call-1", name := n, arguments := "{}" }] [] [] consec
    (fun c _ => rfl)
  simp only [List.append_nil] at hpc
  rw [hpc]
  rfl

/-- C3: a pending call whose name is not in the tool registry fails the
loop immediately with the tool-execution error naming the unknown tool
when TerminateOnUnknown is set; otherwise it appends a synthetic
error-text tool-result message, increments the consecutive-error counter
and continues, without ever comparing the counter against
MaxConsecutiveErrors on that path: a batch of only unknown calls completes
normally from any starting counter value (even far beyond the threshold),
a backend that only requests unknown tools drives the loop to the
MaxIterations error (never the consecutive-errors error), and the counter
accumulated by unknown calls finally trips the breaker at the next
known-tool failure. -/
theorem claim3_unknown_tool :
    (∀ (cfg : InvocationConfig) (tools : List Tool)
        (invoke : Tool → String → Except String String) (resp : ChatResponse)
        (call : FunctionCall) (rest : List FunctionCall) (rm : List Message)
        (consec : Int),
      lookupTool tools call.name = none →
      cfg.terminateOnUnknown = true →
      processCalls cfg tools invoke resp (call :: rest) rm consec
        = CallsOutcome.fatal (LoopError.unknownTool call.name))
    ∧ (∀ (client : ChatClient) (cfg : InvocationConfig) (tools : List Tool)
        (invoke : Tool → String → Except String String)
        (fuel iteration : Nat) (messages : List Message) (consec : Int)
        (resp : ChatResponse) (call : FunctionCall) (rest : List FunctionCall),
      client iteration messages = Except.ok resp →
      extractFunctionCalls resp = call :: rest →
      lookupTool tools call.name = none →
      cfg.terminateOnUnknown = true →
      invokeLoop client cfg tools invoke (fuel + 1) iteration messages consec
        = Except.error (LoopError.unknownTool call.name))
    ∧ (∀ (cfg : InvocationConfig) (tools : List Tool)
        (invoke : Tool → String → Except String String) (resp : ChatResponse)
        (call : FunctionCall) (rest : List FunctionCall) (rm : List Message)
        (consec : Int),
      lookupTool tools call.name = none →
      cfg.terminateOnUnknown = false →
      processCalls cfg tools invoke resp (call :: rest) rm consec
        = processCalls cfg tools invoke resp rest
            (rm ++ [newToolMessage call.callID "error: unknown tool"])
            (consec + 1))
    ∧ (∀ (cfg : InvocationConfig) (tools : List Tool)
        (invoke : Tool → String → Except String String) (resp : ChatResponse)
        (calls : List FunctionCall) (rm : List Message) (consec : Int),
      cfg.terminateOnUnknown = false →
      (∀ c ∈ calls, lookupTool tools c.name = none) →
      processCalls cfg tools invoke resp calls rm consec
        = CallsOutcome.done
            (rm ++ calls.map (fun c => newToolMessage c.callID "error: unknown tool"))
            (consec + calls.length))
    ∧ (∀ (n : String) (mi mce : Int) (messages : List Message),
      1 ≤ mi →
      invokeFunctions (constClient (singleCallResponse n)) messages
          { tools := [] } { maxIterations := mi, maxConsecutiveErrors := mce } []
        = Except.error (LoopError.maxIterations mi))
    ∧ (∀ (cfg : InvocationConfig) (tools : List Tool)
        (invoke : Tool → String → Except String String) (resp : ChatResponse)
        (ucalls : List FunctionCall) (kcall : FunctionCall) (tool : Tool)
        (e : String),
      cfg.terminateOnUnknown = false →
      (∀ c ∈ ucalls, lookupTool tools c.name = none) →
      lookupTool tools kcall.name = some tool →
      tool.approval ≠ ApprovalAlways →
      tool.declarationOnly = false →
      invoke tool kcall.arguments = Except.error e →
      (ucalls.length : Int) + 1 ≥ cfg.maxConsecutiveErrors →
      processCalls cfg tools invoke resp (ucalls ++ [kcall]) [] 0
        = CallsOutcome.fatal
            (LoopError.maxConsecutiveErrors ((ucalls.length : Int) + 1))) := by
  refine ⟨?_, ?_, ?_, ?_, ?_, ?_⟩
  · intro cfg tools invoke resp call rest rm consec h1 h2
    simp [processCalls, h1, h2]
  · intro client cfg tools invoke fuel iteration messages consec resp call rest
      hcl hex h1 h2
    rw [invokeLoop_step client cfg tools invoke fuel iteration messages consec
      resp call rest hcl hex]
    simp [processCalls, h1, h2]
  · intro cfg tools invoke resp call rest rm consec h1 h2
    simp only [processCalls, h1, h2]
    rw [if_neg (show ¬ (false = true) by simp)]
  · intro cfg tools invoke resp calls rm consec hterm h
    have := processCalls_unknown_run cfg tools invoke resp hterm calls [] rm consec h
    rw [List.append_nil] at this
    rw [this]
    rfl
  · intro n mi mce messages h1
    have hmi : (normalizeConfig { maxIterations := mi, maxConsecutiveErrors := mce }).maxIterations = mi := by
      simp only [normalizeConfig]
      rw [if_neg (by omega)]
    have hdone : ∀ (k : Nat) (msgs : List Message) (consec : Int), ∃ resp rms consec', constClient (singleCallResponse n) k msgs = Except.ok resp ∧ extractFunctionCalls resp ≠ [] ∧ processCalls (normalizeConfig { maxIterations := mi, maxConsecutiveErrors := mce }) [] (fun t a => invokeToolWithMiddleware t a []) resp (extractFunctionCalls resp) [] consec = CallsOutcome.done rms consec' := by
      intro k msgs consec
      refine ⟨singleCallResponse n, [newToolMessage "call-1" "error: unknown tool"],
        consec + 1, rfl, ?_, ?_⟩
      · rw [show extractFunctionCalls (singleCallResponse n)
          = [{ callID := "call-1", name := n, arguments := "{}" }] from rfl]
        simp
      · rw [show extractFunctionCalls (singleCallResponse n)
          = [{ callID := "call-1", name := n, arguments := "{}" }] from rfl]
        have hpc := processCalls_unknownPre n mi mce consec
        exact hpc
    have hres := invokeLoop_all_done (constClient (singleCallResponse n)) (normalizeConfig { maxIterations := mi, maxConsecutiveErrors := mce }) [] (fun t a => invokeToolWithMiddleware t a []) hdone (normalizeConfig { maxIterations := mi, maxConsecutiveErrors := mce }).maxIterations.toNat 0 messages 0
    have heq : invokeFunctions (constClient (singleCallResponse n)) messages { tools := [] } { maxIterations := mi, maxConsecutiveErrors := mce } [] = invokeLoop (constClient (singleCallResponse n)) (normalizeConfig { maxIterations := mi, maxConsecutiveErrors := mce }) [] (fun t a => invokeToolWithMiddleware t a []) (normalizeConfig { maxIterations := mi, maxConsecutiveErrors := mce }).maxIterations.toNat 0 messages 0 := rfl
    rw [heq, hres, hmi]
  · intro cfg tools invoke resp ucalls kcall tool e hterm hu hk happ hdecl hfail hth
    rw [processCalls_unknown_run cfg tools invoke resp hterm ucalls [kcall] [] 0 hu]
    simp only [processCalls, hk, hfail, List.nil_append]
    rw [if_neg happ, if_neg (show ¬ tool.declarationOnly = true by simp [hdecl]),
      if_pos (by omega)]
    congr 1
    congr 1
    omega

/-- C3 witness: concrete instances of all six parts — an unknown call with
TerminateOnUnknown fails at once (at both the batch and the loop level);
without it the call yields a synthetic error message and an incremented
counter; a batch of two unknown calls starting at counter 99 (far past the
threshold) still completes normally at counter 101; a backend requesting
only unknown tools ends with MaxIterations; and three unknowns followed by
a known failing call trip the breaker at count 4. -/
theorem claim3_witness :
    processCalls { terminateOnUnknown := true } []
        (fun t a => t.invoke a) (singleCallResponse "ghost")
        [{ callID := "c1", name := "ghost", arguments := "{}" }] [] 0
      = CallsOutcome.fatal (LoopError.unknownTool "ghost")
    ∧ invokeLoop (constClient (singleCallResponse "ghost"))
        { terminateOnUnknown := true } [] (fun t a => t.invoke a) 1 0 [] 0
      = Except.error (LoopError.unknownTool "ghost")
    ∧ processCalls {} [] (fun t a => t.invoke a) (singleCallResponse "ghost")
        [{ callID := "c1", name := "ghost", arguments := "{}" }] [] 0
      = CallsOutcome.done [newToolMessage "c1" "error: unknown tool"] 1
    ∧ processCalls {} [] (fun t a => t.invoke a) (singleCallResponse "ghost")
        [{ callID := "c1", name := "ghost", arguments := "{}" },
         { callID := "c2", name := "ghost", arguments := "{}" }] [] 99
      = CallsOutcome.done
          [newToolMessage "c1" "error: unknown tool",
           newToolMessage "c2" "error: unknown tool"] 101
    ∧ invokeFunctions (constClient (singleCallResponse "ghost")) []
        { tools := [] } { maxIterations := 2, maxConsecutiveErrors := 3 } []
      = Except.error (LoopError.maxIterations 2)
    ∧ processCalls defaultInvocationConfig [alwaysFailTool "t" "boom"]
        (fun t a => t.invoke a) (singleCallResponse "t")
        ([{ callID := "c1", name := "ghost", arguments := "{}" },
          { callID := "c2", name := "ghost", arguments := "{}" },
          { callID := "c3", name := "ghost", arguments := "{}" }]
         ++ [{ callID := "c4", name := "t", arguments := "{}" }]) [] 0
      = CallsOutcome.fatal (LoopError.maxConsecutiveErrors 4) :=
  ⟨claim3_unknown_tool.1 { terminateOnUnknown := true } []
      (fun t a => t.invoke a) (singleCallResponse "ghost")
      { callID := "c1", name := "ghost", arguments := "{}" } [] [] 0 rfl rfl,
   claim3_unknown_tool.2.1 (constClient (singleCallResponse "ghost"))
      { terminateOnUnknown := true } [] (fun t a => t.invoke a) 0 0 [] 0
      (singleCallResponse "ghost")
      { callID := "call-1", name := "ghost", arguments := "{}" } []
      rfl rfl rfl rfl,
   claim3_unknown_tool.2.2.1 {} [] (fun t a => t.invoke a)
      (singleCallResponse "ghost")
      { callID := "c1", name := "ghost", arguments := "{}" } [] [] 0 rfl rfl,
   claim3_unknown_tool.2.2.2.1 {} [] (fun t a => t.invoke a)
      (singleCallResponse "ghost")
      [{ callID := "c1", name := "ghost", arguments := "{}" },
       { callID := "c2", name := "ghost", arguments := "{}" }] [] 99
      rfl (fun c _ => rfl),
   claim3_unknown_tool.2.2.2.2.1 "ghost" 2 3 [] (by decide),
   claim3_unknown_tool.2.2.2.2.2 defaultInvocationConfig
      [alwaysFailTool "t" "boom"] (fun t a => t.invoke a)
      (singleCallResponse "t")
      [{ callID := "c1", name := "ghost", arguments := "{}" },
       { callID := "c2", name := "ghost", arguments := "{}" },
       { callID := "c3", name := "ghost", arguments := "{}" }]
      { callID := "c4", name := "t", arguments := "{}" }
      (alwaysFailTool "t" "boom") "boom"
      rfl (by intro c hc; fin_cases hc <;> rfl) rfl (by decide) rfl rfl
      (by decide)⟩

/-! ### Approval-required and declaration-only tools -/

/-- C4: a pending call resolving to an approval-mode-always tool is not
invoked: the loop appends an assistant message with an approval-request
content item carrying the call id, name and arguments to the response and
returns that response immediately; a pending call resolving to a
declaration-only (non-approval) tool makes the loop return the response
immediately and unchanged, its function-call content intact, invoking
nothing.  Both are shown at the batch level and at the loop level. -/
theorem claim4_approval_declaration :
    (∀ (cfg : InvocationConfig) (tools : List Tool)
        (invoke : Tool → String → Except String String) (resp : ChatResponse)
        (call : FunctionCall) (rest : List FunctionCall) (rm : List Message)
        (consec : Int) (tool : Tool),
      lookupTool tools call.name = some tool →
      tool.approval = ApprovalAlways →
      processCalls cfg tools invoke resp (call :: rest) rm consec
        = CallsOutcome.earlyReturn
            { resp with messages := resp.messages ++ [approvalMessage call] })
    ∧ (∀ (client : ChatClient) (cfg : InvocationConfig) (tools : List Tool)
        (invoke : Tool → String → Except String String)
        (fuel iteration : Nat) (messages : List Message) (consec : Int)
        (resp : ChatResponse) (call : FunctionCall) (rest : List FunctionCall)
        (tool : Tool),
      client iteration messages = Except.ok resp →
      extractFunctionCalls resp = call :: rest →
      lookupTool tools call.name = some tool →
      tool.approval = ApprovalAlways →
      invokeLoop client cfg tools invoke (fuel + 1) iteration messages consec
        = Except.ok
            { resp with messages := resp.messages ++ [approvalMessage call] })
    ∧ (∀ (cfg : InvocationConfig) (tools : List Tool)
        (invoke : Tool → String → Except String String) (resp : ChatResponse)
        (call : FunctionCall) (rest : List FunctionCall) (rm : List Message)
        (consec : Int) (tool : Tool),
      lookupTool tools call.name = some tool →
      tool.approval ≠ ApprovalAlways →
      tool.declarationOnly = true →
      processCalls cfg tools invoke resp (call :: rest) rm consec
        = CallsOutcome.earlyReturn resp)
    ∧ (∀ (client : ChatClient) (cfg : InvocationConfig) (tools : List Tool)
        (invoke : Tool → String → Except String String)
        (fuel iteration : Nat) (messages : List Message) (consec : Int)
        (resp : ChatResponse) (call : FunctionCall) (rest : List FunctionCall)
        (tool : Tool),
      client iteration messages = Except.ok resp →
      extractFunctionCalls resp = call :: rest →
      lookupTool tools call.name = some tool →
      tool.approval ≠ ApprovalAlways →
      tool.declarationOnly = true →
      invokeLoop client cfg tools invoke (fuel + 1) iteration messages consec
        = Except.ok resp) := by
  refine ⟨?_, ?_, ?_, ?_⟩
  · intro cfg tools invoke resp call rest rm consec tool h1 h2
    simp only [processCalls, h1]
    rw [if_pos h2]
  · intro client cfg tools invoke fuel iteration messages consec resp call rest
      tool hcl hex h1 h2
    rw [invokeLoop_step client cfg tools invoke fuel iteration messages consec
      resp call rest hcl hex]
    simp only [processCalls, h1]
    rw [if_pos h2]
  · intro cfg tools invoke resp call rest rm consec tool h1 h2 h3
    simp only [processCalls, h1]
    rw [if_neg h2, if_pos h3]
  · intro client cfg tools invoke fuel iteration messages consec resp call rest
      tool hcl hex h1 h2 h3
    rw [invokeLoop_step client cfg tools invoke fuel iteration messages consec
      resp call rest hcl hex]
    simp only [processCalls, h1]
    rw [if_neg h2, if_pos h3]

/-- C4 witness: a response calling an approval-required tool returns with
an appended approval request and without invocation, and one calling a
declaration-only tool returns unchanged, at both the batch and loop
levels. -/
theorem claim4_witness :
    processCalls {} [approvalTool "t"] (fun t a => t.invoke a)
        (singleCallResponse "t")
        [{ callID := "call-1", name := "t", arguments := "{}" }] [] 0
      = CallsOutcome.earlyReturn
          { singleCallResponse "t" with
            messages := (singleCallResponse "t").messages
              ++ [approvalMessage { callID := "call-1", name := "t", arguments := "{}" }] }
    ∧ invokeLoop (constClient (singleCallResponse "t")) {} [approvalTool "t"]
        (fun t a => t.invoke a) 1 0 [] 0
      = Except.ok
          { singleCallResponse "t" with
            messages := (singleCallResponse "t").messages
              ++ [approvalMessage { callID := "call-1", name := "t", arguments := "{}" }] }
    ∧ processCalls {} [declOnlyTool "t"] (fun t a => t.invoke a)
        (singleCallResponse "t")
        [{ callID := "call-1", name := "t", arguments := "{}" }] [] 0
      = CallsOutcome.earlyReturn (singleCallResponse "t")
    ∧ invokeLoop (constClient (singleCallResponse "t")) {} [declOnlyTool "t"]
        (fun t a => t.invoke a) 1 0 [] 0
      = Except.ok (singleCallResponse "t") :=
  ⟨claim4_approval_declaration.1 {} [approvalTool "t"] (fun t a => t.invoke a)
      (singleCallResponse "t")
      { callID := "call-1", name := "t", arguments := "{}" } [] [] 0
      (approvalTool "t") rfl rfl,
   claim4_approval_declaration.2.1 (constClient (singleCallResponse "t")) {}
      [approvalTool "t"] (fun t a => t.invoke a) 0 0 [] 0
      (singleCallResponse "t")
      { callID := "call-1", name := "t", arguments := "{}" } []
      (approvalTool "t") rfl rfl rfl rfl,
   claim4_approval_declaration.2.2.1 {} [declOnlyTool "t"]
      (fun t a => t.invoke a) (singleCallResponse "t")
      { callID := "call-1", name := "t", arguments := "{}" } [] [] 0
      (declOnlyTool "t") rfl (by decide) rfl,
   claim4_approval_declaration.2.2.2 (constClient (singleCallResponse "t")) {}
      [declOnlyTool "t"] (fun t a => t.invoke a) 0 0 [] 0
      (singleCallResponse "t")
      { callID := "call-1", name := "t", arguments := "{}" } []
      (declOnlyTool "t") rfl rfl rfl (by decide) rfl⟩

/-! ### Early return discards the batch's accumulated tool results -/

/-- C10: results accumulated for earlier calls of a batch are discarded on
an early return.  Formally: (1) the outcome of processing a batch depends
on the already-accumulated result messages only by prefixing them onto a
normal completion — fatal and early-return outcomes are identical for
every accumulator value; (2) a response returned early carries no
tool-result message from the batch: it is the backend response itself,
possibly extended by exactly one approval-request message; (3) at the loop
level an early return yields that response directly, so the accumulated
result messages are appended neither to the returned response nor to the
conversation message list. -/
theorem claim10_early_return_discards_results :
    (∀ (cfg : InvocationConfig) (tools : List Tool)
        (invoke : Tool → String → Except String String) (resp : ChatResponse)
        (calls : List FunctionCall) (rm : List Message) (consec : Int),
      processCalls cfg tools invoke resp calls rm consec
        = match processCalls cfg tools invoke resp calls [] consec with
          | CallsOutcome.done d c' => CallsOutcome.done (rm ++ d) c'
          | o => o)
    ∧ (∀ (cfg : InvocationConfig) (tools : List Tool)
        (invoke : Tool → String → Except String String) (resp : ChatResponse)
        (calls : List FunctionCall) (rm : List Message) (consec : Int)
        (r : ChatResponse),
      processCalls cfg tools invoke resp calls rm consec
        = CallsOutcome.earlyReturn r →
      r = resp ∨ ∃ call, r
        = { resp with messages := resp.messages ++ [approvalMessage call] })
    ∧ (∀ (client : ChatClient) (cfg : InvocationConfig) (tools : List Tool)
        (invoke : Tool → String → Except String String)
        (fuel iteration : Nat) (messages : List Message) (consec : Int)
        (resp : ChatResponse) (call : FunctionCall) (rest : List FunctionCall)
        (r : ChatResponse),
      client iteration messages = Except.ok resp →
      extractFunctionCalls resp = call :: rest →
      processCalls cfg tools invoke resp (call :: rest) [] consec
        = CallsOutcome.earlyReturn r →
      invokeLoop client cfg tools invoke (fuel + 1) iteration messages consec
        = Except.ok r) := by
  refine ⟨?_, ?_, ?_⟩
  · intro cfg tools invoke resp calls
    induction calls with
    | nil => intro rm consec; simp [processCalls]
    | cons call rest ih =>
      intro rm consec
      simp only [processCalls]
      cases hl : lookupTool tools call.name with
      | none =>
        dsimp only
        by_cases ht : cfg.terminateOnUnknown = true
        · simp [ht]
        · simp only [ht, Bool.false_eq_true, if_false]
          rw [ih (rm ++ [newToolMessage call.callID "error: unknown tool"]) (consec + 1),
            ih ([] ++ [newToolMessage call.callID "error: unknown tool"]) (consec + 1)]
          cases hP : processCalls cfg tools invoke resp rest [] (consec + 1) <;> simp
      | some tool =>
        dsimp only
        by_cases happ : tool.approval = ApprovalAlways
        · rw [if_pos happ, if_pos happ]
        · rw [if_neg happ, if_neg happ]
          by_cases hdecl : tool.declarationOnly = true
          · rw [if_pos hdecl, if_pos hdecl]
          · rw [if_neg hdecl, if_neg hdecl]
            cases hinv : invoke tool call.arguments with
            | error e =>
              dsimp only
              by_cases hth : consec + 1 ≥ cfg.maxConsecutiveErrors
              · rw [if_pos hth, if_pos hth]
              · rw [if_neg hth, if_neg hth]
                rw [ih (rm ++ [newToolMessage call.callID
                    (if cfg.includeDetailedErrors then e else "error invoking tool")])
                    (consec + 1),
                  ih ([] ++ [newToolMessage call.callID
                    (if cfg.includeDetailedErrors then e else "error invoking tool")])
                    (consec + 1)]
                cases hP : processCalls cfg tools invoke resp rest [] (consec + 1) <;> simp
            | ok result =>
              dsimp only
              rw [ih (rm ++ [newToolMessage call.callID result]) 0,
                ih ([] ++ [newToolMessage call.callID result]) 0]
              cases hP : processCalls cfg tools invoke resp rest [] 0 <;> simp
  · intro cfg tools invoke resp calls
    induction calls with
    | nil =>
      intro rm consec r h
      exact absurd h (by simp [processCalls])
    | cons call rest ih =>
      intro rm consec r h
      simp only [processCalls] at h
      cases hl : lookupTool tools call.name with
      | none =>
        rw [hl] at h
        dsimp only at h
        by_cases ht : cfg.terminateOnUnknown = true
        · rw [if_pos ht] at h
          exact absurd h (by simp)
        · rw [if_neg ht] at h
          exact ih _ _ r h
      | some tool =>
        rw [hl] at h
        dsimp only at h
        by_cases happ : tool.approval = ApprovalAlways
        · rw [if_pos happ] at h
          cases h
          exact Or.inr ⟨call, rfl⟩
        · rw [if_neg happ] at h
          by_cases hdecl : tool.declarationOnly = true
          · rw [if_pos hdecl] at h
            cases h
            exact Or.inl rfl
          · rw [if_neg hdecl] at h
            cases hinv : invoke tool call.arguments with
            | error e =>
              rw [hinv] at h
              dsimp only at h
              by_cases hth : consec + 1 ≥ cfg.maxConsecutiveErrors
              · rw [if_pos hth] at h
                exact absurd h (by simp)
              · rw [if_neg hth] at h
                exact ih _ _ r h
            | ok result =>
              rw [hinv] at h
              dsimp only at h
              exact ih _ _ r h
  · intro client cfg tools invoke fuel iteration messages consec resp call rest r
      hcl hex h
    rw [invokeLoop_step client cfg tools invoke fuel iteration messages consec
      resp call rest hcl hex, h]

/-- C10 witness: a batch whose first call succeeds (producing a
tool-result message) and whose second call needs approval: the outcome
with a pre-seeded accumulator equals the outcome with an empty one, the
early-returned response is the backend response plus exactly one
approval-request message (the successful first result is gone), and the
loop returns it directly. -/
theorem claim10_witness :
    (processCalls {} [alwaysOkTool "a" "ra", approvalTool "b"]
        (fun t a => t.invoke a) twoCallResponse
        [{ callID := "c1", name := "a", arguments := "{}" },
         { callID := "c2", name := "b", arguments := "{}" }]
        [newToolMessage "x" "y"] 0
      = match processCalls {} [alwaysOkTool "a" "ra", approvalTool "b"]
            (fun t a => t.invoke a) twoCallResponse
            [{ callID := "c1", name := "a", arguments := "{}" },
             { callID := "c2", name := "b", arguments := "{}" }] [] 0 with
        | CallsOutcome.done d c' =>
            CallsOutcome.done ([newToolMessage "x" "y"] ++ d) c'
        | o => o)
    ∧ ({ twoCallResponse with
          messages := twoCallResponse.messages
            ++ [approvalMessage { callID := "c2", name := "b", arguments := "{}" }] }
        = twoCallResponse
      ∨ ∃ call, ({ twoCallResponse with
          messages := twoCallResponse.messages
            ++ [approvalMessage { callID := "c2", name := "b", arguments := "{}" }] } : ChatResponse)
        = { twoCallResponse with
            messages := twoCallResponse.messages ++ [approvalMessage call] })
    ∧ invokeLoop (constClient twoCallResponse) {}
        [alwaysOkTool "a" "ra", approvalTool "b"] (fun t a => t.invoke a) 1 0 [] 0
      = Except.ok
          { twoCallResponse with
            messages := twoCallResponse.messages
              ++ [approvalMessage { callID := "c2", name := "b", arguments := "{}" }] } :=
  ⟨claim10_early_return_discards_results.1 {}
      [alwaysOkTool "a" "ra", approvalTool "b"] (fun t a => t.invoke a)
      twoCallResponse
      [{ callID := "c1", name := "a", arguments := "{}" },
       { callID := "c2", name := "b", arguments := "{}" }]
      [newToolMessage "x" "y"] 0,
   claim10_early_return_discards_results.2.1 {}
      [alwaysOkTool "a" "ra", approvalTool "b"] (fun t a => t.invoke a)
      twoCallResponse
      [{ callID := "c1", name := "a", arguments := "{}" },
       { callID := "c2", name := "b", arguments := "{}" }] [] 0 _ rfl,
   claim10_early_return_discards_results.2.2 (constClient twoCallResponse) {}
      [alwaysOkTool "a" "ra", approvalTool "b"] (fun t a => t.invoke a) 0 0 [] 0
      twoCallResponse
      { callID := "c1", name := "a", arguments := "{}" }
      [{ callID := "c2", name := "b", arguments := "{}" }] _ rfl rfl rfl⟩

/-! ### Middleware chaining -/

theorem traceAgent_chain (names : List String) :
    ∀ req : AgentRequest,
      chainAgentMiddleware echoAgentHandler (names.map traceAgentMiddleware) req
        = Except.ok { messages := req.messages
            ++ names.map (fun n => sysTextMessage (n ++ ":pre"))
            ++ (names.reverse.map (fun n => sysTextMessage (n ++ ":post"))) } := by
  induction names with
  | nil => intro req; simp [chainAgentMiddleware, echoAgentHandler]
  | cons n rest ih =>
    intro req
    show traceAgentMiddleware n
        (chainAgentMiddleware echoAgentHandler (rest.map traceAgentMiddleware)) req = _
    simp only [traceAgentMiddleware, ih]
    simp [List.reverse_cons, List.map_append, List.append_assoc]

theorem traceChat_chain (names : List String) :
    ∀ (msgs : List Message) (opts : ChatOptions),
      chainChatMiddleware echoChatHandler (names.map traceChatMiddleware) msgs opts
        = Except.ok { messages := msgs
            ++ names.map (fun n => sysTextMessage (n ++ ":pre"))
            ++ (names.reverse.map (fun n => sysTextMessage (n ++ ":post"))) } := by
  induction names with
  | nil => intro msgs opts; simp [chainChatMiddleware, echoChatHandler]
  | cons n rest ih =>
    intro msgs opts
    show traceChatMiddleware n
        (chainChatMiddleware echoChatHandler (rest.map traceChatMiddleware)) msgs opts = _
    simp only [traceChatMiddleware, ih]
    simp [List.reverse_cons, List.map_append, List.append_assoc]

theorem traceFunction_chain (names : List String) :
    ∀ (tool : Tool) (args : String),
      chainFunctionMiddleware echoFunctionHandler
          (names.map traceFunctionMiddleware) tool args
        = Except.ok (args ++ preMarkers names ++ postMarkers names) := by
  induction names with
  | nil =>
    intro tool args
    show Except.ok args = _
    rw [show preMarkers [] = "" from rfl, show postMarkers [] = "" from rfl,
      String.append_empty, String.append_empty]
  | cons n rest ih =>
    intro tool args
    show traceFunctionMiddleware n
        (chainFunctionMiddleware echoFunctionHandler
          (rest.map traceFunctionMiddleware)) tool args = _
    simp only [traceFunctionMiddleware, ih]
    rw [show preMarkers (n :: rest) = "<" ++ n ++ (":pre>" ++ preMarkers rest) from by
        simp [preMarkers, String.append_assoc],
      show postMarkers (n :: rest) = postMarkers rest ++ ("<" ++ n ++ ":post>") from by
        simp [postMarkers, String.append_assoc]]
    simp [String.append_assoc]

/-- C7: for each of the three pipelines (agent, chat, function), chaining
the empty middleware list returns the core handler unchanged and chaining
m :: ms wraps m outermost around the chain of ms, so the effective handler
is m0(m1(...mn(core)...)); consequently, invoking the chained handler runs
recording middlewares' pre-hooks in list order and post-hooks in reverse
list order, demonstrated per pipeline by trace-recording middleware. -/
theorem claim7_middleware_chaining :
    (∀ h : AgentHandler, chainAgentMiddleware h [] = h)
    ∧ (∀ (h : AgentHandler) (m : AgentMiddleware) (ms : List AgentMiddleware),
        chainAgentMiddleware h (m :: ms) = m (chainAgentMiddleware h ms))
    ∧ (∀ h : ChatHandler, chainChatMiddleware h [] = h)
    ∧ (∀ (h : ChatHandler) (m : ChatMiddleware) (ms : List ChatMiddleware),
        chainChatMiddleware h (m :: ms) = m (chainChatMiddleware h ms))
    ∧ (∀ h : FunctionHandler, chainFunctionMiddleware h [] = h)
    ∧ (∀ (h : FunctionHandler) (m : FunctionMiddleware)
          (ms : List FunctionMiddleware),
        chainFunctionMiddleware h (m :: ms) = m (chainFunctionMiddleware h ms))
    ∧ (∀ (names : List String) (req : AgentRequest),
        chainAgentMiddleware echoAgentHandler (names.map traceAgentMiddleware) req
          = Except.ok { messages := req.messages
              ++ names.map (fun n => sysTextMessage (n ++ ":pre"))
              ++ (names.reverse.map (fun n => sysTextMessage (n ++ ":post"))) })
    ∧ (∀ (names : List String) (msgs : List Message) (opts : ChatOptions),
        chainChatMiddleware echoChatHandler (names.map traceChatMiddleware) msgs opts
          = Except.ok { messages := msgs
              ++ names.map (fun n => sysTextMessage (n ++ ":pre"))
              ++ (names.reverse.map (fun n => sysTextMessage (n ++ ":post"))) })
    ∧ (∀ (names : List String) (tool : Tool) (args : String),
        chainFunctionMiddleware echoFunctionHandler
            (names.map traceFunctionMiddleware) tool args
          = Except.ok (args ++ preMarkers names ++ postMarkers names)) :=
  ⟨fun _ => rfl, fun _ _ _ => rfl, fun _ => rfl, fun _ _ _ => rfl,
   fun _ => rfl, fun _ _ _ => rfl,
   fun names req => traceAgent_chain names req,
   fun names msgs opts => traceChat_chain names msgs opts,
   fun names tool args => traceFunction_chain names tool args⟩

/-! ### Session mode locking -/

theorem applyModeOp_preserves (s : Session) (op : ModeOp) (hop : genuineOp op) :
    (lockedLocal s → lockedLocal (applyModeOp s op))
    ∧ (lockedService s → lockedService (applyModeOp s op)) := by
  cases op with
  | setServiceOp id =>
    by_cases hc : s.modeLocked = true ∧ s.store ≠ none
    · simp only [applyModeOp, setServiceID, if_pos hc]
      exact ⟨fun h => h, fun h => h⟩
    · simp only [applyModeOp, setServiceID, if_neg hc]
      constructor
      · intro h
        exact absurd h hc
      · intro _
        exact ⟨rfl, hop⟩
  | setStoreOp st =>
    by_cases hc : s.modeLocked = true ∧ s.serviceID ≠ ""
    · simp only [applyModeOp, setStore, if_pos hc]
      exact ⟨fun h => h, fun h => h⟩
    · simp only [applyModeOp, setStore, if_neg hc]
      constructor
      · intro _
        exact ⟨rfl, hop⟩
      · intro h
        exact absurd h hc

/-- C8: a session locked into local mode (mode lock taken with a store
attached) rejects every SetServiceID call with the mode-locked error; a
session locked into service mode (mode lock taken with a non-empty
service id) rejects every SetStore call with the mode-locked error; an
unlocked session is locked into local mode by a successful SetStore with
an actual store and into service mode by a successful SetServiceID with a
non-empty id; and every sequence of genuine mode-setting operations
(non-empty ids, non-nil stores) leaves a locked session permanently in
its first-chosen mode. -/
theorem claim8_session_mode_lock :
    (∀ (s : Session) (id : String), lockedLocal s →
      setServiceID s id
        = Except.error (SessionError.modeLocked "cannot switch to service mode"))
    ∧ (∀ (s : Session) (st : Option MessageStore), lockedService s →
      setStore s st
        = Except.error (SessionError.modeLocked "cannot switch to local mode"))
    ∧ (∀ (s : Session) (st : MessageStore), s.modeLocked = false →
      setStore s (some st)
          = Except.ok { s with store := some st, modeLocked := true }
      ∧ lockedLocal { s with store := some st, modeLocked := true })
    ∧ (∀ (s : Session) (id : String), s.modeLocked = false → id ≠ "" →
      setServiceID s id
          = Except.ok { s with serviceID := id, modeLocked := true }
      ∧ lockedService { s with serviceID := id, modeLocked := true })
    ∧ (∀ (s : Session) (ops : List ModeOp), (∀ op ∈ ops, genuineOp op) →
      (lockedLocal s → lockedLocal (applyModeOps s ops))
      ∧ (lockedService s → lockedService (applyModeOps s ops))) := by
  refine ⟨?_, ?_, ?_, ?_, ?_⟩
  · intro s id h
    simp only [setServiceID]
    exact if_pos h
  · intro s st h
    simp only [setStore]
    exact if_pos h
  · intro s st h
    constructor
    · simp only [setStore]
      rw [if_neg (by simp [h])]
    · exact ⟨rfl, by simp⟩
  · intro s id h hid
    constructor
    · simp only [setServiceID]
      rw [if_neg (by simp [h])]
    · exact ⟨rfl, hid⟩
  · intro s ops
    induction ops generalizing s with
    | nil => intro _; exact ⟨fun h => h, fun h => h⟩
    | cons op rest ih =>
      intro hops
      have hstep := applyModeOp_preserves s op (hops op (by simp))
      have hrest := ih (applyModeOp s op) (fun x hx => hops x (List.mem_cons_of_mem op hx))
      exact ⟨fun h => hrest.1 (hstep.1 h), fun h => hrest.2 (hstep.2 h)⟩

/-- C8 witness: a fresh session locked into local mode by attaching a
store rejects SetServiceID; one locked into service mode rejects
SetStore; and a sequence of genuine operations leaves the local-locked
session in local mode. -/
theorem claim8_witness :
    setServiceID { id := "s1", store := some "mem", modeLocked := true } "srv"
      = Except.error (SessionError.modeLocked "cannot switch to service mode")
    ∧ setStore { id := "s2", serviceID := "srv", modeLocked := true } (some "mem")
      = Except.error (SessionError.modeLocked "cannot switch to local mode")
    ∧ (setStore { id := "s3" } (some "mem")
        = Except.ok { id := "s3", store := some "mem", modeLocked := true }
      ∧ lockedLocal { id := "s3", store := some "mem", modeLocked := true })
    ∧ (setServiceID { id := "s4" } "srv"
        = Except.ok { id := "s4", serviceID := "srv", modeLocked := true }
      ∧ lockedService { id := "s4", serviceID := "srv", modeLocked := true })
    ∧ lockedLocal
        (applyModeOps { id := "s1", store := some "mem", modeLocked := true }
          [ModeOp.setServiceOp "srv", ModeOp.setStoreOp (some "mem2")]) :=
  ⟨claim8_session_mode_lock.1 { id := "s1", store := some "mem", modeLocked := true }
      "srv" (by constructor <;> decide),
   claim8_session_mode_lock.2.1 { id := "s2", serviceID := "srv", modeLocked := true }
      (some "mem") (by constructor <;> decide),
   claim8_session_mode_lock.2.2.1 { id := "s3" } "mem" rfl,
   claim8_session_mode_lock.2.2.2.1 { id := "s4" } "srv" rfl (by decide),
   (claim8_session_mode_lock.2.2.2.2
      { id := "s1", store := some "mem", modeLocked := true }
      [ModeOp.setServiceOp "srv", ModeOp.setStoreOp (some "mem2")]
      (by intro op hop; fin_cases hop <;> simp [genuineOp])).1
      (by constructor <;> decide)⟩

/-! ### Option merging -/

/-- C9: counterexample to the claim as stated.  The claim says run's
option preparation yields a tool list "concatenated and de-duplicated by
name"; prepareChatOptions concatenates the agent's tools with the
per-call tools without de-duplication, so an agent tool and a per-call
tool that share the name "add" both survive, and the resulting name list
["add", "add"] has a duplicate. -/
theorem claim9_tools_counterexample :
    ((prepareChatOptions { tools := [alwaysOkTool "add" "1"] }
        { tools := [alwaysOkTool "add" "2"] }).tools.map Tool.name)
      = ["add", "add"]
    ∧ ¬ (((prepareChatOptions { tools := [alwaysOkTool "add" "1"] }
        { tools := [alwaysOkTool "add" "2"] }).tools.map Tool.name).Nodup) := by
  constructor
  · rfl
  · decide

/-- C9 (amended): MergeChatOptions overlays right-biased scalar fields
(set override values win, unset keep the base) and concatenates
instructions base-first with a newline; but the tool list produced by
run/runStream's prepareChatOptions is the plain concatenation of the
agent's tools with the per-call tools — NOT de-duplicated by name — and,
when that concatenation is non-empty, it replaces the merged options'
tools entirely; the agent instructions are then prepended with a newline
separator. -/
theorem claim9_options_merge :
    (∀ b o : ChatOptions,
      (MergeChatOptions (some b) (some o)).modelID
          = (if o.modelID ≠ "" then o.modelID else b.modelID)
      ∧ (MergeChatOptions (some b) (some o)).temperature
          = (if o.temperature.isSome then o.temperature else b.temperature)
      ∧ (MergeChatOptions (some b) (some o)).topP
          = (if o.topP.isSome then o.topP else b.topP)
      ∧ (MergeChatOptions (some b) (some o)).maxTokens
          = (if o.maxTokens.isSome then o.maxTokens else b.maxTokens)
      ∧ (MergeChatOptions (some b) (some o)).stop
          = (if o.stop ≠ [] then o.stop else b.stop)
      ∧ (MergeChatOptions (some b) (some o)).seed
          = (if o.seed.isSome then o.seed else b.seed)
      ∧ (MergeChatOptions (some b) (some o)).frequencyPenalty
          = (if o.frequencyPenalty.isSome then o.frequencyPenalty
             else b.frequencyPenalty)
      ∧ (MergeChatOptions (some b) (some o)).presencePenalty
          = (if o.presencePenalty.isSome then o.presencePenalty
             else b.presencePenalty)
      ∧ (MergeChatOptions (some b) (some o)).toolChoice
          = (if o.toolChoice ≠ "" then o.toolChoice else b.toolChoice)
      ∧ (MergeChatOptions (some b) (some o)).responseFormat
          = (if o.responseFormat.isSome then o.responseFormat else b.responseFormat)
      ∧ (MergeChatOptions (some b) (some o)).user
          = (if o.user ≠ "" then o.user else b.user)
      ∧ (MergeChatOptions (some b) (some o)).conversationID
          = (if o.conversationID ≠ "" then o.conversationID else b.conversationID)
      ∧ (MergeChatOptions (some b) (some o)).store
          = (if o.store.isSome then o.store else b.store)
      ∧ (MergeChatOptions (some b) (some o)).instructions
          = (if o.instructions ≠ "" then
              (if b.instructions ≠ "" then b.instructions ++ "\n" ++ o.instructions
               else o.instructions)
             else b.instructions)
      ∧ MergeChatOptions none (some o) = o
      ∧ MergeChatOptions (some b) none = b)
    ∧ (∀ (a : Agent) (cfg : RunConfig),
        prepareChatOptions a cfg
          = { MergeChatOptions a.defaultOptions cfg.options with
              tools :=
                if (a.tools ++ cfg.tools).isEmpty then
                  (MergeChatOptions a.defaultOptions cfg.options).tools
                else a.tools ++ cfg.tools
              instructions :=
                if a.instructions ≠ "" then
                  (if (MergeChatOptions a.defaultOptions cfg.options).instructions ≠ ""
                   then a.instructions ++ "\n"
                     ++ (MergeChatOptions a.defaultOptions cfg.options).instructions
                   else a.instructions)
                else (MergeChatOptions a.defaultOptions cfg.options).instructions }) := by
  constructor
  · intro b o
    exact ⟨rfl, rfl, rfl, rfl, rfl, rfl, rfl, rfl, rfl, rfl, rfl, rfl, rfl, rfl,
      rfl, rfl⟩
  · intro a cfg
    simp only [prepareChatOptions]
    by_cases h1 : (a.tools ++ cfg.tools).isEmpty <;>
      by_cases h2 : a.instructions = "" <;>
        by_cases h3 : (MergeChatOptions a.defaultOptions cfg.options).instructions = "" <;>
          simp [h1, h2, h3]
    all_goals (apply ChatOptions.ext <;> simp [h1, h2, h3])
